import Mathlib

/-!
# user-service: the keyset-pagination listing of the record store

A shallow embedding of `internal/core/user.go`, `internal/user/store/store.go`
and `internal/user/manager.go`.

* Go strings are byte sequences (`GoString`).
* Go `int` is a 64-bit two's-complement integer (`GoInt`); sums and differences
  wrap around.
* A run-time panic is an explicit outcome (`none` for the helpers,
  `Outcome.panicked` for the listing).
* The relational backend and the store behind the manager are parameters.
-/

namespace UserService

/-! ## Go values -/

/-- One byte of a Go string. -/
abbrev Byte := Fin 256

/-- Go `string`: an immutable sequence of bytes. -/
abbrev GoString := List Byte

/-- The byte of an ASCII character. -/
def chr (c : Char) : Byte := Fin.ofNat c.toNat

/-- The bytes of an ASCII string literal of the source. -/
def ascii (s : String) : GoString := s.data.map chr

/-- Wrap a mathematical integer into the 64-bit two's-complement range. -/
def wrap64 (x : Int) : Int := (x + 9223372036854775808) % 18446744073709551616 - 9223372036854775808

/-- Go `int` on a 64-bit platform. -/
structure GoInt where
  val : Int
  lo : -9223372036854775808 ≤ val
  hi : val < 9223372036854775808
deriving DecidableEq

namespace GoInt

/-- Conversion of an integer constant, reduced into range. -/
def ofInt (x : Int) : GoInt := ⟨wrap64 x, by unfold wrap64; omega, by unfold wrap64; omega⟩

/-- Go `a + b` on `int`. -/
def add (a b : GoInt) : GoInt := ofInt (a.val + b.val)

/-- Go `a - b` on `int`. -/
def sub (a b : GoInt) : GoInt := ofInt (a.val - b.val)

end GoInt

/-! ## `time.Time` -/

/-- An instant with a location: seconds since the Unix epoch, the nanoseconds
within that second and the zone offset (seconds east of UTC) of its location. -/
structure Time where
  sec : Int
  nsec : Fin 1000000000
  offset : Int
deriving DecidableEq

namespace Time

/-- Go `t.UTC()`: the same instant with the location set to UTC. -/
def UTC (t : Time) : Time := { t with offset := 0 }

/-- Seconds since the epoch on the wall clock of the location. -/
def wall (t : Time) : Int := t.sec + t.offset

/-- Days since 1970-01-01 on the wall clock of the location. -/
def days (t : Time) : Int := t.wall / 86400

/-- Second of the day on the wall clock of the location. -/
def secOfDay (t : Time) : Int := t.wall % 86400

/-- Day of the 400-year era (era starts on 0000-03-01). -/
def dayOfEra (t : Time) : Int := (t.days + 719468) % 146097

/-- Year of the era, 0..399. -/
def yearOfEra (t : Time) : Int :=
  let doe := t.dayOfEra
  (doe - doe / 1460 + doe / 36524 - doe / 146096) / 365

/-- Day of the year counted from March 1st. -/
def dayOfMarchYear (t : Time) : Int :=
  let yoe := t.yearOfEra
  t.dayOfEra - (365 * yoe + yoe / 4 - yoe / 100)

/-- Month counted from March (0 = March, 11 = February). -/
def marchMonth (t : Time) : Int := (5 * t.dayOfMarchYear + 2) / 153

/-- Go `t.Month()` as an integer, 1..12. -/
def Month (t : Time) : Int := if t.marchMonth < 10 then t.marchMonth + 3 else t.marchMonth - 9

/-- Go `t.Year()`. -/
def Year (t : Time) : Int :=
  t.yearOfEra + (t.days + 719468) / 146097 * 400 + (if t.Month ≤ 2 then 1 else 0)

/-- Go `t.Day()`, 1..31. -/
def Day (t : Time) : Int := t.dayOfMarchYear - (153 * t.marchMonth + 2) / 5 + 1

/-- Go `t.Hour()`, 0..23. -/
def Hour (t : Time) : Int := t.secOfDay / 3600

/-- Go `t.Minute()`, 0..59. -/
def Minute (t : Time) : Int := t.secOfDay % 3600 / 60

/-- Go `t.Second()`, 0..59. -/
def Second (t : Time) : Int := t.secOfDay % 60

end Time

/-! ## `uuid.UUID` -/

/-- A 128-bit identifier: sixteen bytes. -/
structure UUID where
  bytes : List Byte
  size : bytes.length = 16
deriving DecidableEq

/-- Lower-case hexadecimal digit of a value below sixteen. -/
def hexDigit (n : Nat) : Byte := if n < 10 then Fin.ofNat (48 + n) else Fin.ofNat (87 + n)

/-- Two hexadecimal digits per byte. -/
def hexBytes : List Byte → GoString
  | [] => []
  | b :: bs => hexDigit (b.val / 16) :: hexDigit (b.val % 16) :: hexBytes bs

namespace UUID

/-- Go `id.String()`: the form xxxxxxxx-xxxx-xxxx-xxxx-xxxxxxxxxxxx. -/
def String (u : UUID) : GoString :=
  hexBytes (u.bytes.take 4) ++ chr '-' :: hexBytes ((u.bytes.drop 4).take 2) ++
    chr '-' :: hexBytes ((u.bytes.drop 6).take 2) ++
    chr '-' :: hexBytes ((u.bytes.drop 8).take 2) ++
    chr '-' :: hexBytes (u.bytes.drop 10)

end UUID

/-! ## `core.User` and `core.UserFilter` -/

/-- Source `core.User`. -/
structure User where
  ID : UUID
  FirstName : GoString
  LastName : GoString
  Nickname : GoString
  Password : GoString
  Email : GoString
  Country : GoString
  CreatedAt : Time
  UpdatedAt : Time
deriving DecidableEq

/-- Source `core.UserFilter`. -/
structure UserFilter where
  Country : GoString
  FirstName : GoString
  LastName : GoString
  Nickname : GoString
  PreviousPage : GoString
  NextPage : GoString
  Limit : GoInt
deriving DecidableEq

/-! ## `fmt.Sprintf("%d", ...)` -/

/-- Decimal digits of `n`, most significant first, put in front of `acc`. -/
def fmtNatAux : Nat → Nat → GoString → GoString
  | 0, _, acc => acc
  | fuel + 1, n, acc =>
    if n / 10 = 0 then Fin.ofNat (48 + n % 10) :: acc
    else fmtNatAux fuel (n / 10) (Fin.ofNat (48 + n % 10) :: acc)

/-- The verb `%d` on a non-negative number. -/
def fmtNat (n : Nat) : GoString := fmtNatAux (n + 1) n []

/-- The verb `%d`: decimal, a leading minus sign for negative numbers, no padding. -/
def fmtInt (x : Int) : GoString :=
  if x < 0 then chr '-' :: fmtNat x.natAbs else fmtNat x.natAbs

/-! ## `encoding/base64`, `StdEncoding` -/

/-- The standard alphabet: the character of a six-bit value. -/
def b64Char (v : Nat) : Byte :=
  if v < 26 then Fin.ofNat (65 + v)
  else if v < 52 then Fin.ofNat (97 + (v - 26))
  else if v < 62 then Fin.ofNat (48 + (v - 52))
  else if v = 62 then chr '+'
  else chr '/'

/-- The decode map of the standard alphabet: the six-bit value of a character,
if it has one. -/
def b64Value (c : Byte) : Option Nat :=
  if 65 ≤ c.val ∧ c.val ≤ 90 then some (c.val - 65)
  else if 97 ≤ c.val ∧ c.val ≤ 122 then some (c.val - 97 + 26)
  else if 48 ≤ c.val ∧ c.val ≤ 57 then some (c.val - 48 + 52)
  else if c.val = 43 then some 62
  else if c.val = 47 then some 63
  else none

/-- Go `base64.StdEncoding.EncodeToString`. -/
def b64Encode : List Byte → GoString
  | [] => []
  | [a] => [b64Char (a.val / 4), b64Char (a.val % 4 * 16), chr '=', chr '=']
  | [a, b] =>
    [b64Char (a.val / 4), b64Char (a.val % 4 * 16 + b.val / 16), b64Char (b.val % 16 * 4), chr '=']
  | a :: b :: c :: rest =>
    b64Char (a.val / 4) :: b64Char (a.val % 4 * 16 + b.val / 16) ::
      b64Char (b.val % 16 * 4 + c.val / 64) :: b64Char (c.val % 64) :: b64Encode rest

/-! ## The cursor -/

namespace Store

/-- The constant `DEFAULT_LIMIT`. -/
def DEFAULT_LIMIT : GoInt := GoInt.ofInt 100

/-- The text `"%d-%d-%d %d:%d:%d"` of year, month, day, hour, minute, second. -/
def fmtCreatedAt (createdAt : Time) : GoString :=
  fmtInt createdAt.Year ++ chr '-' :: fmtInt createdAt.Month ++ chr '-' :: fmtInt createdAt.Day ++
    chr ' ' :: fmtInt createdAt.Hour ++ chr ':' :: fmtInt createdAt.Minute ++
    chr ':' :: fmtInt createdAt.Second

/-- The text `"%s,%s,%d"` that `encodeCursor` encodes. -/
def cursorKey (createdAt : Time) (id : GoString) (offset : GoInt) : GoString :=
  fmtCreatedAt createdAt ++ chr ',' :: id ++ chr ',' :: fmtInt offset.val

/-- Source `Store.encodeCursor`. -/
def encodeCursor (createdAt : Time) (id : GoString) (offset : GoInt) : GoString :=
  b64Encode (cursorKey createdAt id offset)

/-- Source `Store.setPreviousPage`; `none` is the index-out-of-range panic of
`results[len(results)-1]`. -/
def setPreviousPage (results : List User) (offset limit : GoInt) : Option GoString :=
  if 0 ≤ (GoInt.sub offset limit).val ∧ 0 < results.length then
    results.getLast?.map fun u => encodeCursor u.CreatedAt.UTC u.ID.String offset
  else some []

/-- Source `Store.setNextPage`; `none` is the index-out-of-range panic of
`results[len(results)-1]`. -/
def setNextPage (results : List User) (offset total limit : GoInt) : Option GoString :=
  if 0 < (GoInt.sub total offset).val ∧ limit.val ≤ (results.length : Int) ∧
      GoInt.sub total offset ≠ limit then
    results.getLast?.map fun u => encodeCursor u.CreatedAt.UTC u.ID.String offset
  else some []

end Store

/-! ## `encoding/base64` decoding, `strings.Split`, `strconv.Atoi` -/

/-- Skip the line breaks `\n` and `\r`, which the decoder ignores. -/
def skipNewlines : GoString → GoString
  | [] => []
  | c :: cs => if c.val = 10 ∨ c.val = 13 then skipNewlines cs else c :: cs

/-- The decoding loop of `base64.StdEncoding.DecodeString` (padded, not strict):
`buf` holds the six-bit values read so far for the current group of four; `none` is
`CorruptInputError`. -/
def b64DecodeAux : GoString → List Nat → Option (List Byte)
  | [], buf => if buf.length = 0 then some [] else none
  | c :: cs, buf =>
    match b64Value c with
    | some v =>
      match buf with
      | [v0, v1, v2] =>
        (b64DecodeAux cs []).map fun rest =>
          Fin.ofNat (v0 * 4 + v1 / 16) :: Fin.ofNat (v1 % 16 * 16 + v2 / 4) ::
            Fin.ofNat (v2 % 4 * 64 + v) :: rest
      | _ => b64DecodeAux cs (buf ++ [v])
    | none =>
      if c.val = 10 ∨ c.val = 13 then b64DecodeAux cs buf
      else if c ≠ chr '=' then none
      else
        match buf with
        | [v0, v1] =>
          match skipNewlines cs with
          | [] => none
          | d :: ds =>
            if d ≠ chr '=' then none
            else if skipNewlines ds = [] then some [Fin.ofNat (v0 * 4 + v1 / 16)]
            else none
        | [v0, v1, v2] =>
          if skipNewlines cs = [] then
            some [Fin.ofNat (v0 * 4 + v1 / 16), Fin.ofNat (v1 % 16 * 16 + v2 / 4)]
          else none
        | _ => none

/-- Go `base64.StdEncoding.DecodeString`; `none` is a non-nil error. -/
def b64Decode (s : GoString) : Option (List Byte) := b64DecodeAux s []

/-- Go `strings.Split(s, sep)` for a one-byte separator. -/
def splitOn (sep : Byte) : GoString → List GoString
  | [] => [[]]
  | c :: cs =>
    if c = sep then [] :: splitOn sep cs
    else
      match splitOn sep cs with
      | [] => [[c]]
      | h :: t => (c :: h) :: t

/-- Value of a run of decimal digits read after `acc`; `none` on any other byte. -/
def parseDigits : Nat → GoString → Option Nat
  | acc, [] => some acc
  | acc, c :: cs =>
    if 48 ≤ c.val ∧ c.val ≤ 57 then parseDigits (acc * 10 + (c.val - 48)) cs else none

/-- Go `strconv.Atoi`: an optional sign, at least one decimal digit, nothing else, and a
value that fits `int`; `none` is a non-nil error. -/
def Atoi (s : GoString) : Option GoInt :=
  let neg := s.head? = some (chr '-')
  let ds := if s.head? = some (chr '-') ∨ s.head? = some (chr '+') then s.tail else s
  if ds = [] then none
  else
    match parseDigits 0 ds with
    | none => none
    | some n =>
      if neg then
        (if n ≤ 9223372036854775808 then some (GoInt.ofInt (-(n : Int))) else none)
      else
        (if n < 9223372036854775808 then some (GoInt.ofInt n) else none)

/-! ## Errors and outcomes -/

/-- A Go `error` value. -/
inductive GoError where
  /-- Go `base64.CorruptInputError`; the input position it carries is not modelled. -/
  | corruptInput
  /-- Go `errors.New(text)`. -/
  | new (text : String)
  /-- An error value handed over by the backend or by a collaborator. -/
  | external (code : Nat)
deriving DecidableEq

deriving instance DecidableEq for Except

/-- What a listing call returns: `(users, previousPage, nextPage, total, err)`;
`users = none` is the nil slice, `err = none` the nil error. -/
structure Listing where
  users : Option (List User)
  previousPage : GoString
  nextPage : GoString
  total : GoInt
  err : Option GoError
deriving DecidableEq

/-- A call either returns or panics. -/
inductive Outcome where
  | panicked
  | returned (r : Listing)
deriving DecidableEq

/-- The return statement `return nil, "", "", 0, err`. -/
def failWith (e : GoError) : Listing := ⟨none, [], [], GoInt.ofInt 0, some e⟩

/-- A `*sql.Rows` as the code sees it: what each `rows.Scan` after a successful
`rows.Next` yields, and `rows.Err()` once `rows.Next` has returned false. -/
structure Rows (α : Type) where
  scans : List (Except GoError α)
  err : Option GoError

/-- The relational backend behind `s.db.QueryContext`: the answer to the page query and
the answer to the count query, each for a statement text and its arguments;
`Except.error` is a nil row set together with a non-nil error. -/
structure Backend where
  page : GoString → List GoString → Except GoError (Rows User)
  count : GoString → List GoString → Except GoError (Rows GoInt)

namespace Store

/-- Source `Store.decodeCursor`. -/
def decodeCursor (encodedCursor : GoString) : Except GoError (GoString × GoString × GoInt) :=
  match b64Decode encodedCursor with
  | none => .error .corruptInput
  | some byt =>
    match splitOn (chr ',') byt with
    | [createdAt, id, third] =>
      match Atoi third with
      | none => .error (.new "cursor is invalid")
      | some offset => .ok (createdAt, id, offset)
    | _ => .error (.new "cursor is invalid")

/-- The local variables of `buildArgumentsAndExtendQueryFromFilter`. -/
structure FilterVars where
  getUsersBaseStmt : GoString
  args : List GoString
  nextPlaceholder : Int
  whereOrAndStmt : GoString

/-- One `if field != ""` block of `buildArgumentsAndExtendQueryFromFilter`, for the
first three fields. -/
def addEquality (column field : GoString) (v : FilterVars) : FilterVars :=
  if field ≠ [] then
    { getUsersBaseStmt := v.getUsersBaseStmt ++ ascii " " ++ v.whereOrAndStmt ++ ascii " " ++
        column ++ ascii "=$" ++ fmtInt v.nextPlaceholder
      args := v.args ++ [field]
      nextPlaceholder := v.nextPlaceholder + 1
      whereOrAndStmt := ascii "AND" }
  else v

/-- The last block, for the nickname: it leaves the placeholder counter and the
joining word as they are. -/
def addNickname (field : GoString) (v : FilterVars) : FilterVars :=
  if field ≠ [] then
    { v with
      getUsersBaseStmt := v.getUsersBaseStmt ++ ascii " " ++ v.whereOrAndStmt ++
        ascii " nickname=$" ++ fmtInt v.nextPlaceholder
      args := v.args ++ [field] }
  else v

/-- The local variables of `buildArgumentsAndExtendQueryFromFilter` at its return
statement. -/
def filterVars (filter : UserFilter) (getUsersBaseStmt : GoString) : FilterVars :=
  addNickname filter.Nickname
    (addEquality (ascii "last_name") filter.LastName
      (addEquality (ascii "first_name") filter.FirstName
        (addEquality (ascii "country") filter.Country
          ⟨getUsersBaseStmt, [], 0, ascii "WHERE"⟩)))

/-- Source `Store.buildArgumentsAndExtendQueryFromFilter`: it returns the arguments and the next
placeholder; the statement text is a by-value parameter, so what the body appends to it
stays in the local copy. -/
def buildArgumentsAndExtendQueryFromFilter (filter : UserFilter) (getUsersBaseStmt : GoString) :
    List GoString × Int :=
  ((filterVars filter getUsersBaseStmt).args, (filterVars filter getUsersBaseStmt).nextPlaceholder + 1)

/-- What `GetAllUsers` has computed when it calls `s.db.QueryContext`. -/
structure Query where
  stmt : GoString
  args : List GoString
  sortOrder : GoString
  limit : GoInt
  offset : GoInt
deriving DecidableEq

/-- The text of the listing statement before the cursor predicate and the ordering. -/
def getAllUsersBaseStmt : GoString :=
  ascii "SELECT id, first_name, last_name, nickname, password, email, country, created_at, updated_at FROM users"

/-- The cursor predicate `" %s (created_at, id) < ($%d, $%d)"`, with `<` or `>`. -/
def cursorPredicate (whereOrAndClause cmp : GoString) (nextPlaceholder : Int) : GoString :=
  ascii " " ++ whereOrAndClause ++ ascii " (created_at, id) " ++ cmp ++ ascii " ($" ++
    fmtInt nextPlaceholder ++ ascii ", $" ++ fmtInt (nextPlaceholder + 1) ++ ascii ")"

/-- The tail `" ORDER BY created_at %s, id %s"` and `" LIMIT %d"`. -/
def orderAndLimit (sortOrder : GoString) (limit : GoInt) : GoString :=
  ascii " ORDER BY created_at " ++ sortOrder ++ ascii ", id " ++ sortOrder ++
    ascii " LIMIT " ++ fmtInt limit.val

/-- The page size `GetAllUsers` works with. -/
def effectiveLimit (filter : UserFilter) : GoInt :=
  if filter.Limit = GoInt.ofInt 0 then DEFAULT_LIMIT else filter.Limit

/-- Source `Store.GetAllUsers` up to the call of `s.db.QueryContext`: the statement, its
arguments, the sort order, the limit and the offset, or the error of a cursor that does
not decode. -/
def buildQuery (filter : UserFilter) : Except GoError Query :=
  let built := buildArgumentsAndExtendQueryFromFilter filter getAllUsersBaseStmt
  let args := built.1
  let nextPlaceholder := built.2
  let whereOrAndClause := if args.length = 0 then ascii "WHERE" else ascii "AND"
  let limit := effectiveLimit filter
  if filter.NextPage ≠ [] then
    match decodeCursor filter.NextPage with
    | .error e => .error e
    | .ok (createdAt, id, offset) =>
      .ok { stmt := getAllUsersBaseStmt ++ cursorPredicate whereOrAndClause (ascii "<") nextPlaceholder ++
              orderAndLimit (ascii "DESC") limit
            args := args ++ [createdAt, id]
            sortOrder := ascii "DESC"
            limit := limit
            offset := GoInt.add offset limit }
  else if filter.PreviousPage ≠ [] then
    match decodeCursor filter.PreviousPage with
    | .error e => .error e
    | .ok (createdAt, id, offset) =>
      if GoInt.sub offset limit ≠ GoInt.ofInt 0 then
        .ok { stmt := getAllUsersBaseStmt ++ cursorPredicate whereOrAndClause (ascii ">") nextPlaceholder ++
                orderAndLimit (ascii "ASC") limit
              args := args ++ [createdAt, id]
              sortOrder := ascii "ASC"
              limit := limit
              offset := GoInt.sub offset limit }
      else
        .ok { stmt := getAllUsersBaseStmt ++ orderAndLimit (ascii "DESC") limit
              args := args
              sortOrder := ascii "DESC"
              limit := limit
              offset := GoInt.sub offset limit }
  else
    .ok { stmt := getAllUsersBaseStmt ++ orderAndLimit (ascii "DESC") limit
          args := args
          sortOrder := ascii "DESC"
          limit := limit
          offset := GoInt.ofInt 0 }

/-- The scan loop of `GetAllUsers`: the records scanned, or the first scan error. -/
def scanUsers : List (Except GoError User) → Except GoError (List User)
  | [] => .ok []
  | .error e :: _ => .error e
  | .ok u :: rest =>
    match scanUsers rest with
    | .error e => .error e
    | .ok us => .ok (u :: us)

/-- The scan loop of `totalCount`: `total` after the loop, or the first scan error. -/
def scanTotal : GoInt → List (Except GoError GoInt) → Except GoError GoInt
  | total, [] => .ok total
  | _, .error e :: _ => .error e
  | _, .ok n :: rest => scanTotal n rest

/-- The text of the count statement. -/
def countStmt : GoString := ascii "SELECT count(*) FROM users"

/-- Source `Store.totalCount`: `(total, err)`. After the loop `err` is nil, so the branch taken
when `rows.Err()` is non-nil returns `(0, nil)`. -/
def totalCount (db : Backend) (filter : UserFilter) : GoInt × Option GoError :=
  let args := (buildArgumentsAndExtendQueryFromFilter filter countStmt).1
  match db.count countStmt args with
  | .error e => (GoInt.ofInt 0, some e)
  | .ok rows =>
    match scanTotal (GoInt.ofInt 0) rows.scans with
    | .error e => (GoInt.ofInt 0, some e)
    | .ok total =>
      if rows.err ≠ none then (GoInt.ofInt 0, none) else (total, none)

/-- Source `Store.GetAllUsers`. When the page query fails the row set is nil and the deferred
`rows.Close()` panics on it. -/
def GetAllUsers (db : Backend) (filter : UserFilter) : Outcome :=
  match buildQuery filter with
  | .error e => .returned (failWith e)
  | .ok q =>
    match db.page q.stmt q.args with
    | .error _ => .panicked
    | .ok rows =>
      match scanUsers rows.scans with
      | .error e => .returned (failWith e)
      | .ok results =>
        match totalCount db filter with
        | (_, some e) => .returned (failWith e)
        | (total, none) =>
          match setPreviousPage results q.offset q.limit, setNextPage results q.offset total q.limit with
          | some previousPage, some nextPage =>
            .returned ⟨some results, previousPage, nextPage, total, none⟩
          | _, _ => .panicked

end Store

namespace Manager

/-- Source `Manager.GetAllUsers` over a store given by its `GetAllUsers`: the filters the store
was called with, in order, and what the manager returns. -/
def GetAllUsers (userStore : UserFilter → Outcome) (filter : UserFilter) :
    List UserFilter × Outcome :=
  if filter.PreviousPage ≠ [] ∧ filter.NextPage ≠ [] then
    ([], .returned (failWith (.new "either next or previous page should be provided")))
  else ([filter], userStore filter)

end Manager

/-! ## The email pattern -/

/-- A character class: one of the listed bytes. -/
def charClass (l : List Byte) : RegularExpression Byte :=
  l.foldr (fun c r => .plus (.char c) r) .zero

/-- The bytes `a` to `z`. -/
def lowerLetters : List Byte := (List.range 26).map fun i => Fin.ofNat (97 + i)

/-- The bytes `0` to `9`. -/
def decimalDigits : List Byte := (List.range 10).map fun i => Fin.ofNat (48 + i)

/-- The class `[a-z0-9._%+\-]`. -/
def localChars : List Byte :=
  lowerLetters ++ decimalDigits ++ [chr '.', chr '_', chr '%', chr '+', chr '-']

/-- The class `[a-z0-9.\-]`. -/
def domainChars : List Byte := lowerLetters ++ decimalDigits ++ [chr '.', chr '-']

/-- The repetition `r+`. -/
def oneOrMore (r : RegularExpression Byte) : RegularExpression Byte := .comp r (.star r)

/-- The repetition `r{2,4}`. -/
def twoToFour (r : RegularExpression Byte) : RegularExpression Byte :=
  .comp r (.comp r (.plus .epsilon (.comp r (.plus .epsilon r))))

/-- The pattern between `^` and `$` of `isEmailValid`:
`[a-z0-9._%+\-]+@[a-z0-9.\-]+\.[a-z]{2,4}`. -/
def emailRegex : RegularExpression Byte :=
  .comp (oneOrMore (charClass localChars))
    (.comp (.char (chr '@'))
      (.comp (oneOrMore (charClass domainChars))
        (.comp (.char (chr '.')) (twoToFour (charClass lowerLetters)))))

/-! ## The manager's mutations -/

/-- The mutating methods of the interface `UserStore`, each by the error it returns. -/
structure UserStore where
  SaveUser : User → Option GoError
  UpdateUser : User → Option GoError
  DeleteUser : UUID → Option GoError

/-- Source `Manager`: the store, the notifier (by the error `NotifySubscriber` returns for a
message) and the flag `shouldNotify`. -/
structure Manager where
  userStore : UserStore
  notifier : GoString → Option GoError
  shouldNotify : Bool

/-- What a manager call does to its collaborators, in order. -/
inductive Call where
  | SaveUser (user : User)
  | UpdateUser (user : User)
  | DeleteUser (id : UUID)
  | NotifySubscriber (msg : GoString)
  /-- The `logrus` error entry for a failed notification. -/
  | LogError (err : GoError)
deriving DecidableEq

namespace Manager

/-- Source `Manager.isEmailValid`: `MatchString` of the pattern anchored at both ends (in Go
`$` without the multi-line flag is the end of the text). The pattern's classes hold ASCII
bytes only, so matching byte by byte gives the answer of the rune-wise matcher. -/
def isEmailValid (e : GoString) : Bool := emailRegex.rmatch e

/-- The block `if m.shouldNotify ...` shared by the three mutations: the notifier is
called once and its error, if any, is only logged. -/
def notify (m : Manager) (msg : GoString) : List Call :=
  if m.shouldNotify then
    match m.notifier msg with
    | some err => [.NotifySubscriber msg, .LogError err]
    | none => [.NotifySubscriber msg]
  else []

/-- Source `Manager.CreateUser`: the calls made and the error returned. `newID` is the value
of `uuid.New()`, `fmtUser` the `%v` rendering of a `core.User`. -/
def CreateUser (m : Manager) (fmtUser : User → GoString) (newID : UUID) (user : User) :
    List Call × Option GoError :=
  let user := { user with ID := newID }
  if !isEmailValid user.Email then ([], some (.new "invalid email"))
  else
    match m.userStore.SaveUser user with
    | some err => ([.SaveUser user], some err)
    | none =>
      (.SaveUser user :: notify m (ascii "User has been created: " ++ fmtUser user), none)

/-- Source `Manager.ModifyUser`: the calls made and the error returned. -/
def ModifyUser (m : Manager) (fmtUser : User → GoString) (user : User) :
    List Call × Option GoError :=
  if !isEmailValid user.Email then ([], some (.new "invalid email"))
  else
    match m.userStore.UpdateUser user with
    | some err => ([.UpdateUser user], some err)
    | none =>
      (.UpdateUser user :: notify m (ascii "User has been updated: " ++ fmtUser user), none)

/-- Source `Manager.RemoveUser`: the calls made and the error returned. -/
def RemoveUser (m : Manager) (id : UUID) : List Call × Option GoError :=
  match m.userStore.DeleteUser id with
  | some err => ([.DeleteUser id], some err)
  | none => (.DeleteUser id :: notify m (ascii "User has been deleted: " ++ id.String), none)

end Manager

/-- Whether a call is a call of the notifier. -/
def Call.isNotify : Call → Bool
  | .NotifySubscriber _ => true
  | _ => false

/-- Whether a call is a call of the store. -/
def Call.isStore : Call → Bool
  | .SaveUser _ => true
  | .UpdateUser _ => true
  | .DeleteUser _ => true
  | _ => false

/-! ## The email format in words -/

/-- A lowercase letter `a`..`z`. -/
def isLowerLetter (c : Byte) : Prop := 97 ≤ c.val ∧ c.val ≤ 122

/-- An uppercase letter `A`..`Z`. -/
def isUpperLetter (c : Byte) : Prop := 65 ≤ c.val ∧ c.val ≤ 90

/-- A digit `0`..`9`. -/
def isDecimalDigit (c : Byte) : Prop := 48 ≤ c.val ∧ c.val ≤ 57

/-- A character of the local part: lowercase letter, digit, `.`, `_`, `%`, `+` or `-`. -/
def isLocalChar (c : Byte) : Prop :=
  isLowerLetter c ∨ isDecimalDigit c ∨ c = chr '.' ∨ c = chr '_' ∨ c = chr '%' ∨
    c = chr '+' ∨ c = chr '-'

/-- A character of the domain: lowercase letter, digit, `.` or `-`. -/
def isDomainChar (c : Byte) : Prop :=
  isLowerLetter c ∨ isDecimalDigit c ∨ c = chr '.' ∨ c = chr '-'

instance (c : Byte) : Decidable (isLowerLetter c) := by
  unfold isLowerLetter; infer_instance

instance (c : Byte) : Decidable (isUpperLetter c) := by
  unfold isUpperLetter; infer_instance

instance (c : Byte) : Decidable (isDecimalDigit c) := by
  unfold isDecimalDigit; infer_instance

instance (c : Byte) : Decidable (isLocalChar c) := by
  unfold isLocalChar; infer_instance

instance (c : Byte) : Decidable (isDomainChar c) := by
  unfold isDomainChar; infer_instance

/-- The email format in words: a non-empty local part, `@`, a non-empty domain, `.`, and a
top-level label of two to four lowercase letters, with nothing before or after. -/
def IsEmailShaped (e : GoString) : Prop :=
  ∃ loc dom tld, e = loc ++ chr '@' :: (dom ++ chr '.' :: tld) ∧
    loc ≠ [] ∧ (∀ c ∈ loc, isLocalChar c) ∧
    dom ≠ [] ∧ (∀ c ∈ dom, isDomainChar c) ∧
    2 ≤ tld.length ∧ tld.length ≤ 4 ∧ ∀ c ∈ tld, isLowerLetter c

/-! ## The HTTP handlers of package `userview` -/

namespace UserView

/-- The constant `http.StatusBadRequest`. -/
def StatusBadRequest : Nat := 400

/-- The constant `http.StatusInternalServerError`. -/
def StatusInternalServerError : Nat := 500

/-- The status `net/http` sends when the handler returns without `http.Error`. -/
def StatusOK : Nat := 200

/-- A client-class status, 4xx. -/
def isClientClass (status : Nat) : Prop := 400 ≤ status ∧ status < 500

/-- A server-class status, 5xx. -/
def isServerClass (status : Nat) : Prop := 500 ≤ status ∧ status < 600

instance (status : Nat) : Decidable (isClientClass status) := by
  unfold isClientClass; infer_instance

instance (status : Nat) : Decidable (isServerClass status) := by
  unfold isServerClass; infer_instance

/-- The zero value of `uuid.UUID`. -/
def zeroUUID : UUID := ⟨List.replicate 16 0, by simp⟩

/-- The zero value of `time.Time`: January 1, year 1, 00:00:00 UTC. -/
def zeroTime : Time := ⟨-62135596800, 0, 0⟩

/-- Source `CreateUserParams`. -/
structure CreateUserParams where
  FirstName : GoString
  LastName : GoString
  Nickname : GoString
  Password : GoString
  Email : GoString
  Country : GoString
deriving DecidableEq

/-- Source `UpdateUserParams`. -/
structure UpdateUserParams where
  ID : UUID
  FirstName : GoString
  LastName : GoString
  Nickname : GoString
  Password : GoString
  Email : GoString
  Country : GoString
deriving DecidableEq

/-- The request body as `tryReadingBody` meets it: `ioutil.ReadAll` fails, or
`json.Unmarshal` fails, or the body decodes into the parameters. -/
inductive Body (α : Type) where
  | unreadable
  | malformed
  | decoded (params : α)

/-- The tags `validate:"required"` of `CreateUserParams`: every field differs from its
zero value. -/
def CreateUserParams.valid (p : CreateUserParams) : Bool :=
  decide (p.FirstName ≠ []) && decide (p.LastName ≠ []) && decide (p.Nickname ≠ []) &&
    decide (p.Password ≠ []) && decide (p.Email ≠ []) && decide (p.Country ≠ [])

/-- The tags `validate:"required"` of `UpdateUserParams`. -/
def UpdateUserParams.valid (p : UpdateUserParams) : Bool :=
  decide (p.ID ≠ zeroUUID) && decide (p.FirstName ≠ []) && decide (p.LastName ≠ []) &&
    decide (p.Nickname ≠ []) && decide (p.Password ≠ []) && decide (p.Email ≠ []) &&
    decide (p.Country ≠ [])

/-- The translation of the create parameters into a `core.User`; the fields the handler
does not set keep their zero values. -/
def CreateUserParams.toUser (p : CreateUserParams) : User :=
  { ID := zeroUUID, FirstName := p.FirstName, LastName := p.LastName, Nickname := p.Nickname
    Password := p.Password, Email := p.Email, Country := p.Country
    CreatedAt := zeroTime, UpdatedAt := zeroTime }

/-- The translation of the update parameters into a `core.User`, with the identifier of
the path. -/
def UpdateUserParams.toUser (p : UpdateUserParams) (id : UUID) : User :=
  { ID := id, FirstName := p.FirstName, LastName := p.LastName, Nickname := p.Nickname
    Password := p.Password, Email := p.Email, Country := p.Country
    CreatedAt := zeroTime, UpdatedAt := zeroTime }

/-- Source `tryReadingBody`: the decoded and validated parameters when it returns true,
the status it has answered with when it returns false. -/
def tryReadingBody {α : Type} (valid : α → Bool) : Body α → Except Nat α
  | .unreadable => .error StatusBadRequest
  | .malformed => .error StatusBadRequest
  | .decoded params => if valid params then .ok params else .error StatusBadRequest

/-- Source `CreateUserEndpoint.ServeHTTP`: the status of the response, for a `UserCreator`
given by the error its `CreateUser` returns. -/
def CreateUserEndpoint.ServeHTTP (userCreator : User → Option GoError)
    (body : Body CreateUserParams) : Nat :=
  match tryReadingBody CreateUserParams.valid body with
  | .error status => status
  | .ok p =>
    match userCreator p.toUser with
    | some _ => StatusInternalServerError
    | none => StatusOK

/-- Source `UpdateUserEndpoint.ServeHTTP`: the status of the response; `id` is the result of
`uuid.Parse` on the path variable, `none` when it fails. -/
def UpdateUserEndpoint.ServeHTTP (userModifier : User → Option GoError) (id : Option UUID)
    (body : Body UpdateUserParams) : Nat :=
  match id with
  | none => StatusBadRequest
  | some id =>
    match tryReadingBody UpdateUserParams.valid body with
    | .error status => status
    | .ok p =>
      match userModifier (p.toUser id) with
      | some _ => StatusInternalServerError
      | none => StatusOK

/-- Source `DeleteUserEndpoint.ServeHTTP`: the status of the response. -/
def DeleteUserEndpoint.ServeHTTP (userRemover : UUID → Option GoError) (id : Option UUID) :
    Nat :=
  match id with
  | none => StatusBadRequest
  | some id =>
    match userRemover id with
    | some _ => StatusInternalServerError
    | none => StatusOK

/-- The query parameters `GetAllUsersEndpoint.ServeHTTP` reads; an absent parameter is the
empty string. -/
structure ListQuery where
  previous_page : GoString
  next_page : GoString
  nickname : GoString
  country : GoString
  first_name : GoString
  last_name : GoString
  limit : GoString
deriving DecidableEq

/-- The filter `GetAllUsersEndpoint.ServeHTTP` builds, or `none` when the parameter
`limit` is present and `strconv.Atoi` rejects it. -/
def ListQuery.filter (q : ListQuery) : Option UserFilter :=
  let filter : UserFilter :=
    { Country := q.country, FirstName := q.first_name, LastName := q.last_name
      Nickname := q.nickname, PreviousPage := q.previous_page, NextPage := q.next_page
      Limit := GoInt.ofInt 0 }
  if q.limit ≠ [] then
    match Atoi q.limit with
    | none => none
    | some l => some { filter with Limit := l }
  else some filter

/-- Source `GetAllUsersEndpoint.ServeHTTP`: the status of the response, `none` when the
`UserGetter` panics. `marshals` tells whether `json.Marshal` accepts the response. -/
def GetAllUsersEndpoint.ServeHTTP (userGetter : UserFilter → Outcome)
    (marshals : Listing → Bool) (q : ListQuery) : Option Nat :=
  match q.filter with
  | none => some StatusBadRequest
  | some filter =>
    match userGetter filter with
    | .panicked => none
    | .returned r =>
      if r.err ≠ none then some StatusInternalServerError
      else if marshals r then some StatusOK
      else some StatusInternalServerError

end UserView

/-! ## Reading a date back -/

/-- Days since 1970-01-01 of the calendar date year-month-day (proleptic Gregorian). -/
def daysFromCivil (y m d : Int) : Int :=
  let y1 := if m ≤ 2 then y - 1 else y
  let era := y1 / 400
  let yoe := y1 - era * 400
  let mp := if 2 < m then m - 3 else m + 9
  let doy := (153 * mp + 2) / 5 + d - 1
  let doe := yoe * 365 + yoe / 4 - yoe / 100 + doy
  era * 146097 + doe - 719468

/-- Seconds since the Unix epoch of the UTC time year-month-day hour:minute:second, the
instant the time text of a cursor names. -/
def unixFromCivil (y m d hh mm ss : Int) : Int :=
  daysFromCivil y m d * 86400 + hh * 3600 + mm * 60 + ss

/-! ## The time text in words -/

/-- The decimal numeral of a natural number, most significant digit first, without
padding: the digit 0 for zero, otherwise the base-10 digits of the number. -/
def decimalNat (n : Nat) : GoString :=
  if n = 0 then [chr '0'] else (Nat.digits 10 n).reverse.map fun d => Fin.ofNat (48 + d)

/-- The decimal numeral of an integer, with a minus sign when it is negative. -/
def decimalText (x : Int) : GoString :=
  if x < 0 then chr '-' :: decimalNat x.natAbs else decimalNat x.natAbs

/-- The text year-month-day hour:minute:second of a time, every number in decimal without
zero padding. -/
def timeText (t : Time) : GoString :=
  decimalText t.Year ++ [chr '-'] ++ decimalText t.Month ++ [chr '-'] ++ decimalText t.Day ++
    [chr ' '] ++ decimalText t.Hour ++ [chr ':'] ++ decimalText t.Minute ++ [chr ':'] ++
    decimalText t.Second

/-- Read the longest run of decimal digits at the front: its value after `acc`, and the
rest of the text. -/
def readDigits : Nat → GoString → Nat × GoString
  | acc, [] => (acc, [])
  | acc, c :: cs =>
    if 48 ≤ c.val ∧ c.val ≤ 57 then readDigits (acc * 10 + (c.val - 48)) cs else (acc, c :: cs)

/-- A text that does not go on with a digit: it is empty or starts with another byte. -/
def NoDigitAhead (rest : GoString) : Prop :=
  ∀ c ∈ rest.head?, ¬ (48 ≤ c.val ∧ c.val ≤ 57)

/-- Read a natural number: at least one digit, then as many as follow. -/
def readNat : GoString → Option (Nat × GoString)
  | [] => none
  | c :: cs => if 48 ≤ c.val ∧ c.val ≤ 57 then some (readDigits 0 (c :: cs)) else none

/-- Read an integer: an optional minus sign and a natural number. -/
def readInt : GoString → Option (Int × GoString)
  | [] => none
  | c :: cs =>
    if c = chr '-' then (readNat cs).map fun r => (-(r.1 : Int), r.2)
    else (readNat (c :: cs)).map fun r => ((r.1 : Int), r.2)

/-- Read one given character. -/
def readChar (c : Byte) : GoString → Option GoString
  | [] => none
  | d :: rest => if d = c then some rest else none

/-- Read a text of the form year-month-day hour:minute:second into its six numbers;
nothing may follow the seconds. -/
def readTimeFields (txt : GoString) : Option (Int × Int × Int × Int × Int × Int) :=
  (readInt txt).bind fun y =>
  (readChar (chr '-') y.2).bind fun r1 =>
  (readInt r1).bind fun m =>
  (readChar (chr '-') m.2).bind fun r2 =>
  (readInt r2).bind fun d =>
  (readChar (chr ' ') d.2).bind fun r3 =>
  (readInt r3).bind fun hh =>
  (readChar (chr ':') hh.2).bind fun r4 =>
  (readInt r4).bind fun mm =>
  (readChar (chr ':') mm.2).bind fun r5 =>
  (readInt r5).bind fun ss =>
  if ss.2 = [] then some (y.1, m.1, d.1, hh.1, mm.1, ss.1) else none

/-- The instant a cursor names: the time text in front of the first comma of the decoded
cursor, read as a UTC time, in seconds since the Unix epoch. -/
def cursorInstant (cursor : GoString) : Option Int :=
  (b64Decode cursor).bind fun key =>
  ((splitOn (chr ',') key).head?).bind fun txt =>
  (readTimeFields txt).map fun f => unixFromCivil f.1 f.2.1 f.2.2.1 f.2.2.2.1 f.2.2.2.2.1 f.2.2.2.2.2

/-! ## Sample data -/

/-- A record used in the examples. -/
def sampleUser (n : Nat) : User :=
  { ID := ⟨List.replicate 15 0 ++ [Fin.ofNat n], by simp⟩
    FirstName := ascii "Ada", LastName := ascii "Lovelace", Nickname := ascii "ada"
    Password := ascii "secret", Email := ascii "ada@faceit.com", Country := ascii "UK"
    CreatedAt := ⟨1730757600 + n, 0, 0⟩, UpdatedAt := ⟨1730757600 + n, 0, 0⟩ }

/-- A filter without predicates whose previous-page cursor carries the offset 100, the
default limit. -/
def backToFirstFilter : UserFilter :=
  { Country := [], FirstName := [], LastName := [], Nickname := []
    PreviousPage := ascii "MjAyNC0xMS00IDIyOjA6MCxhYmMsMTAw", NextPage := []
    Limit := GoInt.ofInt 0 }

/-- The store double of `manager_test.go`: three records, the cursors "previous_page" and
"next_page", total 100, no error. -/
def storeDouble (_ : UserFilter) : Outcome :=
  .returned ⟨some [sampleUser 0, sampleUser 0, sampleUser 0], ascii "previous_page",
    ascii "next_page", GoInt.ofInt 100, none⟩

/-! ## Order of a page -/

/-- Whether instant `a` is earlier than instant `b`. -/
def Time.instantLt (a b : Time) : Bool :=
  decide (a.sec < b.sec) || (decide (a.sec = b.sec) && decide (a.nsec.val < b.nsec.val))

/-- Byte-wise lexicographic order. -/
def bytesLt : List Byte → List Byte → Bool
  | _, [] => false
  | [], _ :: _ => true
  | a :: as, b :: bs => decide (a.val < b.val) || (decide (a = b) && bytesLt as bs)

/-- The sort key (created_at, id): whether `a` sorts before `b`. -/
def keyLt (a b : User) : Bool :=
  a.CreatedAt.instantLt b.CreatedAt ||
    (!b.CreatedAt.instantLt a.CreatedAt && bytesLt a.ID.bytes b.ID.bytes)

/-- Newest first: descending by creation time, then identifier. -/
def newestFirst : List User → Bool
  | [] => true
  | [_] => true
  | a :: b :: rest => keyLt b a && newestFirst (b :: rest)

/-! ## Scenarios -/

/-- The listing of five records `sampleUser 1` (oldest) to `sampleUser 5` with limit 2 has
reached its third page `[sampleUser 1]` at offset 4; this filter follows the previous-page
cursor of that page. -/
def previousFilter : UserFilter :=
  { Country := [], FirstName := [], LastName := [], Nickname := []
    PreviousPage :=
      Store.encodeCursor (sampleUser 1).CreatedAt.UTC (sampleUser 1).ID.String (GoInt.ofInt 4)
    NextPage := []
    Limit := GoInt.ofInt 2 }

/-- The statement `GetAllUsers` sends for `previousFilter`. -/
def previousStmt : GoString :=
  ascii "SELECT id, first_name, last_name, nickname, password, email, country, created_at, updated_at FROM users WHERE (created_at, id) > ($1, $2) ORDER BY created_at ASC, id ASC LIMIT 2"

/-- A backend holding `sampleUser 1` to `sampleUser 5`, as far as the scenario needs it:
to `previousStmt` with the key of `sampleUser 1` it answers the two next newer records in
ascending order, as the statement asks; the count is 5. -/
def ascendingBackend : Backend :=
  { page := fun stmt args =>
      if stmt = previousStmt ∧
          args = [ascii "2024-11-4 22:0:1", ascii "00000000-0000-0000-0000-000000000001"] then
        .ok ⟨[.ok (sampleUser 2), .ok (sampleUser 3)], none⟩
      else .ok ⟨[], none⟩
    count := fun _ _ => .ok ⟨[.ok (GoInt.ofInt 5)], none⟩ }

/-- A filter on the country alone, first page, default limit. -/
def countryFilter : UserFilter :=
  { Country := ascii "BG", FirstName := [], LastName := [], Nickname := []
    PreviousPage := [], NextPage := [], Limit := GoInt.ofInt 0 }

/-- A backend that tells which count statement it was asked: it counts 1 for the
statement without any predicate and the argument "BG", and 7 for anything else. -/
def recordingBackend : Backend :=
  { page := fun _ _ => .ok ⟨[], none⟩
    count := fun stmt args =>
      if stmt = ascii "SELECT count(*) FROM users" ∧ args = [ascii "BG"] then
        .ok ⟨[.ok (GoInt.ofInt 1)], none⟩
      else .ok ⟨[.ok (GoInt.ofInt 7)], none⟩ }

/-- A manager whose store accepts everything and whose notifier always fails, with
notification switched on. -/
def sampleManager : Manager :=
  { userStore := ⟨fun _ => none, fun _ => none, fun _ => none⟩
    notifier := fun _ => some (.external 9)
    shouldNotify := true }

/-- A manager whose store fails with "test-error", as the store double of the manager test
does. -/
def failingManager : Manager :=
  { userStore := ⟨fun _ => some (.new "test-error"), fun _ => some (.new "test-error"),
      fun _ => some (.new "test-error")⟩
    notifier := fun _ => none
    shouldNotify := true }

/-- A stand-in for the `%v` rendering of a record. -/
def sampleFmtUser (u : User) : GoString := u.Nickname

/-- The record of the manager test with the email "invalid-mail-format". -/
def invalidMailUser : User := { sampleUser 1 with Email := ascii "invalid-mail-format" }

/-- The record of the manager test with the email "test@faceit.com". -/
def validMailUser : User := { sampleUser 1 with Email := ascii "test@faceit.com" }

/-- A complete create body whose email is "invalid-mail-format". -/
def badEmailParams : UserView.CreateUserParams :=
  { FirstName := ascii "Ada", LastName := ascii "Lovelace", Nickname := ascii "ada"
    Password := ascii "secret", Email := ascii "invalid-mail-format", Country := ascii "UK" }

/-- A complete update body whose email is "invalid-mail-format". -/
def badEmailUpdate : UserView.UpdateUserParams :=
  { ID := (sampleUser 1).ID, FirstName := ascii "Ada", LastName := ascii "Lovelace"
    Nickname := ascii "ada", Password := ascii "secret", Email := ascii "invalid-mail-format"
    Country := ascii "UK" }

/-- A listing request that sets both cursors. -/
def bothCursorsQuery : UserView.ListQuery :=
  { previous_page := ascii "x", next_page := ascii "y", nickname := [], country := []
    first_name := [], last_name := [], limit := [] }

/-- A listing request whose next-page cursor is not base64. -/
def malformedCursorQuery : UserView.ListQuery :=
  { previous_page := [], next_page := ascii "%", nickname := [], country := []
    first_name := [], last_name := [], limit := [] }

/-- The `CreateUser` of `sampleManager` as the handler's `UserCreator`. -/
def sampleCreator (user : User) : Option GoError :=
  (Manager.CreateUser sampleManager sampleFmtUser (sampleUser 7).ID user).2

/-- The `ModifyUser` of `sampleManager` as the handler's `UserModifier`. -/
def sampleModifier (user : User) : Option GoError :=
  (Manager.ModifyUser sampleManager sampleFmtUser user).2

/-- The `GetAllUsers` of a manager over the store on `recordingBackend` as the handler's
`UserGetter`. -/
def sampleGetter (filter : UserFilter) : Outcome :=
  (Manager.GetAllUsers (Store.GetAllUsers recordingBackend) filter).2

/-- A filter without predicates and without cursor, default limit. -/
def firstPageFilter : UserFilter :=
  { Country := [], FirstName := [], LastName := [], Nickname := []
    PreviousPage := [], NextPage := [], Limit := GoInt.ofInt 0 }

/-- A backend whose page query fails. -/
def pageFailBackend : Backend :=
  { page := fun _ _ => .error (.external 1)
    count := fun _ _ => .ok ⟨[.ok (GoInt.ofInt 3)], none⟩ }

/-- A backend whose count query fails. -/
def countFailBackend : Backend :=
  { page := fun _ _ => .ok ⟨[.ok (sampleUser 3)], none⟩
    count := fun _ _ => .error (.external 2) }

/-- A backend whose count query starts and then fails while its rows are iterated:
`rows.Next` returns false at once and `rows.Err()` is non-nil. -/
def countIterFailBackend : Backend :=
  { page := fun _ _ => .ok ⟨[.ok (sampleUser 3)], none⟩
    count := fun _ _ => .ok ⟨[], some (.external 3)⟩ }

/-! ## Basic facts -/

theorem wrap64_of_range (x : Int) (h1 : -9223372036854775808 ≤ x) (h2 : x < 9223372036854775808) :
    wrap64 x = x := by
  unfold wrap64; omega

theorem GoInt.ext_val {a b : GoInt} (h : a.val = b.val) : a = b := by
  cases a; cases b; simp_all

theorem GoInt.sub_val (a b : GoInt) : (GoInt.sub a b).val = wrap64 (a.val - b.val) := rfl

theorem GoInt.add_val (a b : GoInt) : (GoInt.add a b).val = wrap64 (a.val + b.val) := rfl

/-- The difference of two non-negative `int`s does not wrap. -/
theorem GoInt.sub_val_of_nonneg (a b : GoInt) (ha : 0 ≤ a.val) (hb : 0 ≤ b.val) :
    (GoInt.sub a b).val = a.val - b.val := by
  have := a.hi; have := b.hi
  rw [GoInt.sub_val]; exact wrap64_of_range _ (by omega) (by omega)

/-- The machine difference is zero exactly for equal operands. -/
theorem GoInt.sub_val_eq_zero (a b : GoInt) : (GoInt.sub a b).val = 0 ↔ a = b := by
  have := a.hi; have := b.hi; have := a.lo; have := b.lo
  rw [GoInt.sub_val]
  constructor
  · intro h; apply GoInt.ext_val; unfold wrap64 at h; omega
  · intro h; subst h; unfold wrap64; omega

theorem b64Encode_ne_nil (bs : List Byte) (h : bs ≠ []) : b64Encode bs ≠ [] := by
  match bs, h with
  | [_], _ => simp [b64Encode]
  | [_, _], _ => simp [b64Encode]
  | _ :: _ :: _ :: _, _ => simp [b64Encode]

theorem Store.cursorKey_ne_nil (t : Time) (id : GoString) (offset : GoInt) :
    Store.cursorKey t id offset ≠ [] := by
  simp [Store.cursorKey]

theorem Store.encodeCursor_ne_nil (t : Time) (id : GoString) (offset : GoInt) :
    Store.encodeCursor t id offset ≠ [] :=
  b64Encode_ne_nil _ (Store.cursorKey_ne_nil t id offset)

theorem getLast?_of_pos (results : List User) (h : 0 < results.length) :
    ∃ u, results.getLast? = some u := by
  cases results with
  | nil => simp at h
  | cons a as => exact ⟨_, List.getLast?_eq_getLast _ (by simp)⟩

/-! ## The page cursors -/

theorem GoInt.ne_iff_val {a b : GoInt} : a ≠ b ↔ a.val ≠ b.val :=
  ⟨fun h h2 => h (GoInt.ext_val h2), fun h h2 => h (by rw [h2])⟩

theorem Store.setNextPage_pos (results : List User) (offset total limit : GoInt) (u : User)
    (hc : 0 < (GoInt.sub total offset).val ∧ limit.val ≤ (results.length : Int) ∧
      (GoInt.sub total offset).val ≠ limit.val)
    (hu : results.getLast? = some u) :
    Store.setNextPage results offset total limit =
      some (Store.encodeCursor u.CreatedAt.UTC u.ID.String offset) := by
  unfold Store.setNextPage
  rw [if_pos ⟨hc.1, hc.2.1, GoInt.ne_iff_val.mpr hc.2.2⟩, hu]; rfl

theorem Store.setNextPage_neg (results : List User) (offset total limit : GoInt)
    (hc : ¬ (0 < (GoInt.sub total offset).val ∧ limit.val ≤ (results.length : Int) ∧
      (GoInt.sub total offset).val ≠ limit.val)) :
    Store.setNextPage results offset total limit = some [] := by
  unfold Store.setNextPage
  rw [if_neg]
  rintro ⟨h1, h2, h3⟩
  exact hc ⟨h1, h2, GoInt.ne_iff_val.mp h3⟩

theorem Store.setPreviousPage_pos (results : List User) (offset limit : GoInt) (u : User)
    (hc : 0 ≤ (GoInt.sub offset limit).val ∧ 0 < results.length)
    (hu : results.getLast? = some u) :
    Store.setPreviousPage results offset limit =
      some (Store.encodeCursor u.CreatedAt.UTC u.ID.String offset) := by
  unfold Store.setPreviousPage
  rw [if_pos hc, hu]; rfl

theorem Store.setPreviousPage_neg (results : List User) (offset limit : GoInt)
    (hc : ¬ (0 ≤ (GoInt.sub offset limit).val ∧ 0 < results.length)) :
    Store.setPreviousPage results offset limit = some [] := by
  unfold Store.setPreviousPage
  rw [if_neg hc]

/-- C1: for every page, offset, total and limit >= 1, `setNextPage` returns (without
panicking) a cursor that is non-empty exactly when the `int` difference total - offset is
positive, the page holds at least limit records and total - offset differs from limit; in
that case it is `encodeCursor` of the last record's UTC creation time, its identifier and
the offset, and otherwise it is the empty string. For a non-negative total and offset the
`int` difference is the difference of the numbers. -/
theorem setNextPage_spec (results : List User) (offset total limit : GoInt)
    (hl : 1 ≤ limit.val) :
    ∃ c, Store.setNextPage results offset total limit = some c ∧
      (c ≠ [] ↔ (0 < (GoInt.sub total offset).val ∧ limit.val ≤ (results.length : Int) ∧
        (GoInt.sub total offset).val ≠ limit.val)) ∧
      ((0 < (GoInt.sub total offset).val ∧ limit.val ≤ (results.length : Int) ∧
        (GoInt.sub total offset).val ≠ limit.val) →
        ∃ u, results.getLast? = some u ∧
          c = Store.encodeCursor u.CreatedAt.UTC u.ID.String offset) ∧
      (¬ (0 < (GoInt.sub total offset).val ∧ limit.val ≤ (results.length : Int) ∧
        (GoInt.sub total offset).val ≠ limit.val) → c = []) ∧
      (0 ≤ total.val → 0 ≤ offset.val →
        (GoInt.sub total offset).val = total.val - offset.val) := by
  by_cases hc : 0 < (GoInt.sub total offset).val ∧ limit.val ≤ (results.length : Int) ∧
      (GoInt.sub total offset).val ≠ limit.val
  · obtain ⟨u, hu⟩ := getLast?_of_pos results (by omega)
    exact ⟨_, Store.setNextPage_pos results offset total limit u hc hu,
      ⟨fun _ => hc, fun _ => Store.encodeCursor_ne_nil _ _ _⟩,
      fun _ => ⟨u, hu, rfl⟩, fun h => absurd hc h, GoInt.sub_val_of_nonneg total offset⟩
  · exact ⟨[], Store.setNextPage_neg results offset total limit hc,
      ⟨fun h => absurd rfl h, fun h => absurd h hc⟩, fun h => absurd h hc, fun _ => rfl,
      GoInt.sub_val_of_nonneg total offset⟩

/-- C2: for every page, offset and limit, `setPreviousPage` returns (without panicking) a
cursor that is non-empty exactly when the `int` difference offset - limit is non-negative
and the page is non-empty; in that case it is `encodeCursor` of the last record's UTC
creation time, its identifier and the offset, otherwise it is the empty string; at offset 0
with limit >= 1 it is always empty. For a non-negative offset and limit the `int`
difference is the difference of the numbers. -/
theorem setPreviousPage_spec (results : List User) (offset limit : GoInt) :
    ∃ c, Store.setPreviousPage results offset limit = some c ∧
      (c ≠ [] ↔ (0 ≤ (GoInt.sub offset limit).val ∧ 0 < results.length)) ∧
      ((0 ≤ (GoInt.sub offset limit).val ∧ 0 < results.length) →
        ∃ u, results.getLast? = some u ∧
          c = Store.encodeCursor u.CreatedAt.UTC u.ID.String offset) ∧
      (¬ (0 ≤ (GoInt.sub offset limit).val ∧ 0 < results.length) → c = []) ∧
      (offset.val = 0 → 1 ≤ limit.val → c = []) ∧
      (0 ≤ offset.val → 0 ≤ limit.val →
        (GoInt.sub offset limit).val = offset.val - limit.val) := by
  by_cases hc : 0 ≤ (GoInt.sub offset limit).val ∧ 0 < results.length
  · obtain ⟨u, hu⟩ := getLast?_of_pos results hc.2
    refine ⟨_, Store.setPreviousPage_pos results offset limit u hc hu,
      ⟨fun _ => hc, fun _ => Store.encodeCursor_ne_nil _ _ _⟩,
      fun _ => ⟨u, hu, rfl⟩, fun h => absurd hc h, ?_, GoInt.sub_val_of_nonneg offset limit⟩
    intro h0 h1
    exfalso
    have h := hc.1
    have := limit.hi
    rw [GoInt.sub_val, h0, wrap64_of_range _ (by omega) (by omega)] at h
    omega
  · exact ⟨[], Store.setPreviousPage_neg results offset limit hc,
      ⟨fun h => absurd rfl h, fun h => absurd h hc⟩, fun h => absurd h hc, fun _ => rfl,
      fun _ _ => rfl, GoInt.sub_val_of_nonneg offset limit⟩

/-- Example for C1: a page of one record at offset 0 of 3 records with limit 1. -/
theorem setNextPage_spec_witness :
    ∃ c, Store.setNextPage [sampleUser 3] (GoInt.ofInt 0) (GoInt.ofInt 3) (GoInt.ofInt 1) = some c ∧
      c = Store.encodeCursor (sampleUser 3).CreatedAt.UTC (sampleUser 3).ID.String (GoInt.ofInt 0) := by
  obtain ⟨c, h1, _, h3, _, _⟩ :=
    setNextPage_spec [sampleUser 3] (GoInt.ofInt 0) (GoInt.ofInt 3) (GoInt.ofInt 1) (by decide)
  obtain ⟨u, hu, hcu⟩ := h3 (by decide)
  refine ⟨c, h1, ?_⟩
  simp only [List.getLast?_singleton, Option.some.injEq] at hu
  rw [hcu, ← hu]

/-- Example for C2: the same page at offset 1 has a previous cursor, at offset 0 none. -/
theorem setPreviousPage_spec_witness :
    Store.setPreviousPage [sampleUser 3] (GoInt.ofInt 0) (GoInt.ofInt 1) = some [] := by
  obtain ⟨c, h1, _, _, _, h5, _⟩ :=
    setPreviousPage_spec [sampleUser 3] (GoInt.ofInt 0) (GoInt.ofInt 1)
  rw [h1, h5 (by decide) (by decide)]

/-- C3: walking forward through N records with limit L >= 1: at every offset o >= 0 where
the page holds min(L, max(0, N - o)) records, `setNextPage` returns a non-empty cursor if
and only if o + L < N. With L = 1 and N = 3 and a page of one record, the next cursor is
non-empty at offsets 0 and 1 and empty at offset 2, and the previous cursor is empty at
offset 0 and non-empty at offsets 1 and 2. -/
theorem nextPage_iff_records_remain (results : List User) (o N L : GoInt)
    (ho : 0 ≤ o.val) (hL : 1 ≤ L.val)
    (hpage : (results.length : Int) = min L.val (max 0 (N.val - o.val))) :
    (∃ c, Store.setNextPage results o N L = some c ∧ (c ≠ [] ↔ o.val + L.val < N.val)) ∧
    (∀ page : List User, page.length = 1 →
      (∃ c, Store.setNextPage page (GoInt.ofInt 0) (GoInt.ofInt 3) (GoInt.ofInt 1) = some c ∧ c ≠ []) ∧
      (∃ c, Store.setNextPage page (GoInt.ofInt 1) (GoInt.ofInt 3) (GoInt.ofInt 1) = some c ∧ c ≠ []) ∧
      Store.setNextPage page (GoInt.ofInt 2) (GoInt.ofInt 3) (GoInt.ofInt 1) = some [] ∧
      Store.setPreviousPage page (GoInt.ofInt 0) (GoInt.ofInt 1) = some [] ∧
      (∃ c, Store.setPreviousPage page (GoInt.ofInt 1) (GoInt.ofInt 1) = some c ∧ c ≠ []) ∧
      (∃ c, Store.setPreviousPage page (GoInt.ofInt 2) (GoInt.ofInt 1) = some c ∧ c ≠ [])) := by
  constructor
  · have h1 := o.hi; have h2 := o.lo; have h3 := N.hi; have h4 := N.lo; have h5 := L.hi
    by_cases hr : o.val + L.val < N.val
    · have hs : (GoInt.sub N o).val = N.val - o.val := by
        rw [GoInt.sub_val]; exact wrap64_of_range _ (by omega) (by omega)
      have hc : 0 < (GoInt.sub N o).val ∧ L.val ≤ (results.length : Int) ∧
          (GoInt.sub N o).val ≠ L.val := by
        rw [hs, hpage]; omega
      obtain ⟨u, hu⟩ := getLast?_of_pos results (by omega)
      exact ⟨_, Store.setNextPage_pos results o N L u hc hu,
        fun _ => hr, fun _ => Store.encodeCursor_ne_nil _ _ _⟩
    · refine ⟨[], Store.setNextPage_neg results o N L ?_, fun h => absurd rfl h, fun h => absurd h hr⟩
      rintro ⟨c1, c2, c3⟩
      rw [hpage] at c2
      have hs : (GoInt.sub N o).val = N.val - o.val := by
        rw [GoInt.sub_val]; exact wrap64_of_range _ (by omega) (by omega)
      rw [hs] at c3
      omega
  · intro page hp
    obtain ⟨u, hu⟩ := getLast?_of_pos page (by omega)
    refine ⟨⟨_, Store.setNextPage_pos page _ _ _ u ?_ hu, Store.encodeCursor_ne_nil _ _ _⟩,
      ⟨_, Store.setNextPage_pos page _ _ _ u ?_ hu, Store.encodeCursor_ne_nil _ _ _⟩,
      Store.setNextPage_neg page _ _ _ ?_,
      Store.setPreviousPage_neg page _ _ ?_,
      ⟨_, Store.setPreviousPage_pos page _ _ u ?_ hu, Store.encodeCursor_ne_nil _ _ _⟩,
      ⟨_, Store.setPreviousPage_pos page _ _ u ?_ hu, Store.encodeCursor_ne_nil _ _ _⟩⟩
    · rw [hp]; decide
    · rw [hp]; decide
    · rw [hp]; decide
    · rw [hp]; decide
    · rw [hp]; decide
    · rw [hp]; decide

/-- Example for C3: the second of three pages of one record. -/
theorem nextPage_iff_records_remain_witness :
    ∃ c, Store.setNextPage [sampleUser 2] (GoInt.ofInt 1) (GoInt.ofInt 3) (GoInt.ofInt 1) = some c ∧
      (c ≠ [] ↔ (GoInt.ofInt 1).val + (GoInt.ofInt 1).val < (GoInt.ofInt 3).val) :=
  (nextPage_iff_records_remain [sampleUser 2] (GoInt.ofInt 1) (GoInt.ofInt 3) (GoInt.ofInt 1)
    (by decide) (by decide) (by decide)).1

/-! ## The cursor codec -/

theorem b64Value_b64Char (v : Nat) (h : v < 64) : b64Value (b64Char v) = some v := by
  have key : ∀ w : Fin 64, b64Value (b64Char w.val) = some w.val := by decide
  exact key ⟨v, h⟩

theorem b64DecodeAux_group (c0 c1 c2 c3 : Byte) (v0 v1 v2 v3 : Nat) (rest : GoString)
    (h0 : b64Value c0 = some v0) (h1 : b64Value c1 = some v1)
    (h2 : b64Value c2 = some v2) (h3 : b64Value c3 = some v3) :
    b64DecodeAux (c0 :: c1 :: c2 :: c3 :: rest) [] =
      (b64DecodeAux rest []).map fun r =>
        Fin.ofNat (v0 * 4 + v1 / 16) :: Fin.ofNat (v1 % 16 * 16 + v2 / 4) ::
          Fin.ofNat (v2 % 4 * 64 + v3) :: r := by
  simp [b64DecodeAux, h0, h1, h2, h3]

theorem byte_eq_of_val (a : Byte) (n : Nat) (h : n = a.val) : (Fin.ofNat n : Byte) = a := by
  apply Fin.ext
  have := a.isLt
  simp only [Fin.ofNat, h]
  omega

/-- Decoding undoes encoding. -/
theorem b64Decode_b64Encode (bs : List Byte) : b64Decode (b64Encode bs) = some bs := by
  unfold b64Decode
  induction bs using b64Encode.induct with
  | case1 => simp [b64Encode, b64DecodeAux]
  | case2 a =>
    have ha := a.isLt
    have e0 := b64Value_b64Char (a.val / 4) (by omega)
    have e1 := b64Value_b64Char (a.val % 4 * 16) (by omega)
    have hp : b64Value (chr '=') = none := by decide
    have hq : ¬ ((chr '=').val = 10 ∨ (chr '=').val = 13) := by decide
    simp only [b64Encode, b64DecodeAux, e0, e1, hp, hq, skipNewlines, List.nil_append,
      List.cons_append, ne_eq, not_true_eq_false, if_false, if_true, Option.some.injEq,
      List.cons.injEq, and_true]
    exact byte_eq_of_val a _ (by omega)
  | case3 a b =>
    have ha := a.isLt
    have hb := b.isLt
    have e0 := b64Value_b64Char (a.val / 4) (by omega)
    have e1 := b64Value_b64Char (a.val % 4 * 16 + b.val / 16) (by omega)
    have e2 := b64Value_b64Char (b.val % 16 * 4) (by omega)
    have hp : b64Value (chr '=') = none := by decide
    have hq : ¬ ((chr '=').val = 10 ∨ (chr '=').val = 13) := by decide
    simp only [b64Encode, b64DecodeAux, e0, e1, e2, hp, hq, skipNewlines, List.nil_append,
      List.cons_append, ne_eq, not_true_eq_false, if_false, if_true, Option.some.injEq,
      List.cons.injEq, and_true]
    exact ⟨byte_eq_of_val a _ (by omega), byte_eq_of_val b _ (by omega)⟩
  | case4 a b c rest ih =>
    have ha := a.isLt
    have hb := b.isLt
    have hc := c.isLt
    have e0 := b64Value_b64Char (a.val / 4) (by omega)
    have e1 := b64Value_b64Char (a.val % 4 * 16 + b.val / 16) (by omega)
    have e2 := b64Value_b64Char (b.val % 16 * 4 + c.val / 64) (by omega)
    have e3 := b64Value_b64Char (c.val % 64) (by omega)
    rw [b64Encode, b64DecodeAux_group _ _ _ _ _ _ _ _ _ e0 e1 e2 e3, ih]
    simp only [Option.map_some', Option.some.injEq, List.cons.injEq, and_true]
    exact ⟨byte_eq_of_val a _ (by omega), byte_eq_of_val b _ (by omega),
      byte_eq_of_val c _ (by omega)⟩

theorem splitOn_ne_nil (sep : Byte) (s : GoString) : splitOn sep s ≠ [] := by
  induction s with
  | nil => simp [splitOn]
  | cons c cs ih =>
    unfold splitOn
    split
    · simp
    · split <;> simp

theorem splitOn_of_not_mem (sep : Byte) (s : GoString) (h : sep ∉ s) : splitOn sep s = [s] := by
  induction s with
  | nil => rfl
  | cons c cs ih =>
    simp only [List.mem_cons, not_or] at h
    unfold splitOn
    rw [if_neg (fun e => h.1 e.symm), ih h.2]

theorem splitOn_append (sep : Byte) (a rest : GoString) (h : sep ∉ a) :
    splitOn sep (a ++ sep :: rest) = a :: splitOn sep rest := by
  induction a with
  | nil => simp [splitOn]
  | cons c cs ih =>
    simp only [List.mem_cons, not_or] at h
    rw [List.cons_append, splitOn, if_neg (fun e => h.1 e.symm), ih h.2]

theorem fmtNatAux_mem (fuel n : Nat) (acc : GoString) (b : Byte)
    (h : b ∈ fmtNatAux fuel n acc) : b ∈ acc ∨ (48 ≤ b.val ∧ b.val ≤ 57) := by
  induction fuel generalizing n acc with
  | zero => exact Or.inl h
  | succ fuel ih =>
    have hd : 48 ≤ (Fin.ofNat (48 + n % 10) : Byte).val ∧
        (Fin.ofNat (48 + n % 10) : Byte).val ≤ 57 := by
      simp only [Fin.ofNat]; omega
    unfold fmtNatAux at h
    split at h
    · rcases List.mem_cons.mp h with h | h
      · exact Or.inr (h ▸ hd)
      · exact Or.inl h
    · rcases ih _ _ h with h | h
      · rcases List.mem_cons.mp h with h | h
        · exact Or.inr (h ▸ hd)
        · exact Or.inl h
      · exact Or.inr h

theorem fmtInt_mem (x : Int) (b : Byte) (h : b ∈ fmtInt x) :
    b.val = 45 ∨ (48 ≤ b.val ∧ b.val ≤ 57) := by
  unfold fmtInt at h
  split at h
  · rcases List.mem_cons.mp h with h | h
    · left; rw [h]; decide
    · rcases fmtNatAux_mem _ _ _ _ h with h | h
      · simp at h
      · exact Or.inr h
  · rcases fmtNatAux_mem _ _ _ _ h with h | h
    · simp at h
    · exact Or.inr h

theorem comma_not_mem_fmtInt (x : Int) : chr ',' ∉ fmtInt x := by
  intro h
  have hv : (chr ',').val = 44 := by decide
  rcases fmtInt_mem x _ h with h | h <;> omega

theorem Store.comma_not_mem_fmtCreatedAt (t : Time) : chr ',' ∉ Store.fmtCreatedAt t := by
  intro h
  have c1 : chr ',' ≠ chr '-' := by decide
  have c2 : chr ',' ≠ chr ' ' := by decide
  have c3 : chr ',' ≠ chr ':' := by decide
  simp only [Store.fmtCreatedAt, List.mem_append, List.mem_cons] at h
  have := comma_not_mem_fmtInt
  tauto

theorem parseDigits_fmtNatAux (fuel n : Nat) (acc : GoString) (h : n < fuel) :
    parseDigits 0 (fmtNatAux fuel n acc) = parseDigits n acc := by
  induction fuel generalizing n acc with
  | zero => omega
  | succ fuel ih =>
    have hv : (Fin.ofNat (48 + n % 10) : Byte).val = 48 + n % 10 := by
      simp only [Fin.ofNat]; omega
    unfold fmtNatAux
    split
    · next h0 =>
      rw [parseDigits, if_pos (by omega), hv]
      congr 1; omega
    · next h0 =>
      rw [ih _ _ (by omega), parseDigits, if_pos (by omega), hv]
      congr 1; omega

theorem parseDigits_fmtNat (n : Nat) : parseDigits 0 (fmtNat n) = some n := by
  unfold fmtNat
  rw [parseDigits_fmtNatAux _ _ _ (by omega)]; rfl

theorem fmtNat_head (n : Nat) :
    ∃ d rest, fmtNat n = d :: rest ∧ 48 ≤ d.val ∧ d.val ≤ 57 := by
  have hne : fmtNat n ≠ [] := by
    intro h
    have := parseDigits_fmtNat n
    have key : ∀ fuel m acc, fmtNatAux (fuel + 1) m acc ≠ [] := by
      intro fuel
      induction fuel with
      | zero => intro m acc; unfold fmtNatAux; split <;> simp [fmtNatAux]
      | succ fuel ih =>
        intro m acc
        unfold fmtNatAux
        split
        · simp
        · exact ih _ _
    exact key n n [] h
  match hf : fmtNat n with
  | [] => exact absurd hf hne
  | d :: rest =>
    refine ⟨d, rest, rfl, ?_⟩
    have hm : d ∈ fmtNatAux (n + 1) n [] := by
      have : d ∈ fmtNat n := by rw [hf]; simp
      exact this
    rcases fmtNatAux_mem _ _ _ _ hm with h | h
    · simp at h
    · exact h

/-- Reading with `Atoi` gives back what `%d` wrote, for every `int`. -/
theorem Atoi_fmtInt (x : GoInt) : Atoi (fmtInt x.val) = some x := by
  have hlo := x.lo
  have hhi := x.hi
  obtain ⟨d, rest, hf, hd1, hd2⟩ := fmtNat_head x.val.natAbs
  have hp := parseDigits_fmtNat x.val.natAbs
  have hm : (chr '-').val = 45 := by decide
  have hpl : (chr '+').val = 43 := by decide
  have dm : d ≠ chr '-' := by intro e; rw [e] at hd1; omega
  have dp : d ≠ chr '+' := by intro e; rw [e] at hd1; omega
  unfold fmtInt
  by_cases hx : x.val < 0
  · rw [if_pos hx]
    unfold Atoi
    simp only [List.head?_cons, true_or, if_true, List.tail_cons]
    rw [hf] at hp ⊢
    simp only [reduceCtorEq, if_false, hp, if_true]
    rw [if_pos (by omega)]
    refine congrArg some (GoInt.ext_val ?_)
    show wrap64 _ = _
    rw [wrap64_of_range _ (by omega) (by omega)]
    omega
  · rw [if_neg hx]
    unfold Atoi
    rw [hf] at hp ⊢
    simp only [List.head?_cons, Option.some.injEq, dm, dp, or_self, if_false, reduceCtorEq, hp]
    rw [if_pos (by omega)]
    refine congrArg some (GoInt.ext_val ?_)
    show wrap64 _ = _
    rw [wrap64_of_range _ (by omega) (by omega)]
    omega

/-- C4: `decodeCursor` fails exactly when the input is not accepted by the standard base64
decoder, or the decoded text split on ',' does not have exactly three fields, or the third
field is not accepted by `Atoi`; it succeeds with (createdAt, id, offset) exactly when the
decoded text splits into createdAt, id and a third field that `Atoi` reads as offset. -/
theorem decodeCursor_spec (s : GoString) :
    ((∃ e, Store.decodeCursor s = .error e) ↔
      (b64Decode s = none ∨ ∃ byt, b64Decode s = some byt ∧
        ((splitOn (chr ',') byt).length ≠ 3 ∨
          ∃ third, (splitOn (chr ',') byt)[2]? = some third ∧ Atoi third = none))) ∧
    (∀ createdAt id offset, Store.decodeCursor s = .ok (createdAt, id, offset) ↔
      ∃ byt third, b64Decode s = some byt ∧
        splitOn (chr ',') byt = [createdAt, id, third] ∧ Atoi third = some offset) := by
  unfold Store.decodeCursor
  cases hb : b64Decode s with
  | none => simp
  | some byt =>
    simp only [reduceCtorEq, Option.some.injEq, false_or, exists_eq_left']
    rcases hl : splitOn (chr ',') byt with _ | ⟨a, _ | ⟨b, _ | ⟨c, _ | ⟨d, rest⟩⟩⟩⟩
    · simp [hl]
    · simp [hl]
    · simp [hl]
    · cases ha : Atoi c with
      | none => simp [hl, ha]
      | some n =>
        refine ⟨by simp [ha], fun x y z => ?_⟩
        simp only [ha, Except.ok.injEq, Prod.mk.injEq]
        constructor
        · rintro ⟨rfl, rfl, rfl⟩
          exact ⟨byt, c, rfl, hl, ha⟩
        · rintro ⟨byt2, third, rfl, h1, h2⟩
          rw [hl] at h1
          simp only [List.cons.injEq, and_true] at h1
          obtain ⟨rfl, rfl, rfl⟩ := h1
          rw [ha] at h2
          simp only [Option.some.injEq] at h2
          exact ⟨rfl, rfl, h2⟩
    · simp [hl]

/-- Example for C4: a cursor with two fields and a cursor whose offset is not a number are
rejected, a cursor with three fields and a numeric offset is read. -/
theorem decodeCursor_spec_witness :
    (∃ e, Store.decodeCursor (b64Encode (ascii "a,b")) = .error e) ∧
    (∃ e, Store.decodeCursor (b64Encode (ascii "a,b,c")) = .error e) ∧
    Store.decodeCursor (b64Encode (ascii "a,b,7")) = .ok (ascii "a", ascii "b", GoInt.ofInt 7) :=
  ⟨(decodeCursor_spec (b64Encode (ascii "a,b"))).1.mpr
      (Or.inr ⟨ascii "a,b", by decide, Or.inl (by decide)⟩),
    (decodeCursor_spec (b64Encode (ascii "a,b,c"))).1.mpr
      (Or.inr ⟨ascii "a,b,c", by decide, Or.inr ⟨ascii "c", by decide, by decide⟩⟩),
    ((decodeCursor_spec (b64Encode (ascii "a,b,7"))).2 _ _ _).mpr
      ⟨ascii "a,b,7", ascii "7", by decide, by decide, by decide⟩⟩

/-! ## The time text of a cursor -/

theorem fmtNatAux_digits (fuel n : Nat) (acc : GoString) (h : n < fuel) (hn : 0 < n) :
    fmtNatAux fuel n acc =
      ((Nat.digits 10 n).reverse.map fun d => (Fin.ofNat (48 + d) : Byte)) ++ acc := by
  induction fuel generalizing n acc with
  | zero => omega
  | succ fuel ih =>
    rw [Nat.digits_def' (by omega) hn]
    unfold fmtNatAux
    split
    · next h0 =>
      rw [h0, Nat.digits_zero]
      rfl
    · next h0 =>
      rw [ih (n / 10) _ (by omega) (by omega)]
      simp

/-- The verb `%d` writes the decimal numeral. -/
theorem fmtInt_eq_decimalText (x : Int) : fmtInt x = decimalText x := by
  have key : ∀ n : Nat, fmtNat n = decimalNat n := by
    intro n
    unfold decimalNat
    by_cases h : n = 0
    · subst h; rfl
    · rw [if_neg h]
      unfold fmtNat
      rw [fmtNatAux_digits _ _ _ (by omega) (by omega), List.append_nil]
  unfold fmtInt decimalText
  rw [key]

/-- The text `encodeCursor` formats is the time text in words. -/
theorem Store.fmtCreatedAt_eq_timeText (t : Time) : Store.fmtCreatedAt t = timeText t := by
  unfold Store.fmtCreatedAt timeText
  simp only [fmtInt_eq_decimalText, List.append_assoc, List.singleton_append]

theorem fmtNatAux_append (fuel n : Nat) (acc rest : GoString) :
    fmtNatAux fuel n acc ++ rest = fmtNatAux fuel n (acc ++ rest) := by
  induction fuel generalizing n acc with
  | zero => rfl
  | succ fuel ih =>
    unfold fmtNatAux
    split
    · rfl
    · rw [ih]; rfl

theorem readDigits_fmtNatAux (fuel n : Nat) (acc : GoString) (h : n < fuel) :
    readDigits 0 (fmtNatAux fuel n acc) = readDigits n acc := by
  induction fuel generalizing n acc with
  | zero => omega
  | succ fuel ih =>
    have hv : (Fin.ofNat (48 + n % 10) : Byte).val = 48 + n % 10 := by
      simp only [Fin.ofNat]; omega
    unfold fmtNatAux
    split
    · next h0 =>
      rw [readDigits, if_pos (by omega), hv]
      congr 1; omega
    · next h0 =>
      rw [ih _ _ (by omega), readDigits, if_pos (by omega), hv]
      congr 1; omega

theorem readDigits_stop (n : Nat) (rest : GoString) (h : NoDigitAhead rest) :
    readDigits n rest = (n, rest) := by
  cases rest with
  | nil => rfl
  | cons c cs =>
    rw [readDigits, if_neg (h c (by simp))]

theorem readNat_fmtNat (n : Nat) (rest : GoString) (h : NoDigitAhead rest) :
    readNat (fmtNat n ++ rest) = some (n, rest) := by
  obtain ⟨d, tl, hf, hd1, hd2⟩ := fmtNat_head n
  have e : readDigits 0 (fmtNat n ++ rest) = (n, rest) := by
    unfold fmtNat
    rw [fmtNatAux_append, List.nil_append, readDigits_fmtNatAux _ _ _ (by omega),
      readDigits_stop n rest h]
  rw [hf] at e ⊢
  rw [List.cons_append] at e ⊢
  rw [readNat, if_pos ⟨hd1, hd2⟩, e]

theorem readInt_fmtInt (x : Int) (rest : GoString) (h : NoDigitAhead rest) :
    readInt (fmtInt x ++ rest) = some (x, rest) := by
  unfold fmtInt
  by_cases hx : x < 0
  · rw [if_pos hx, List.cons_append, readInt, if_pos rfl, readNat_fmtNat _ _ h]
    simp only [Option.map_some', Option.some.injEq, Prod.mk.injEq, and_true]
    omega
  · rw [if_neg hx]
    obtain ⟨d, tl, hf, hd1, hd2⟩ := fmtNat_head x.natAbs
    have hm : (chr '-').val = 45 := by decide
    have dm : d ≠ chr '-' := by intro e; rw [e] at hd1; omega
    have e := readNat_fmtNat x.natAbs rest h
    rw [hf, List.cons_append] at e ⊢
    rw [readInt, if_neg dm, e]
    simp only [Option.map_some', Option.some.injEq, Prod.mk.injEq, and_true]
    omega

theorem noDigitAhead_cons (c : Byte) (rest : GoString) (h : ¬ (48 ≤ c.val ∧ c.val ≤ 57)) :
    NoDigitAhead (c :: rest) := by
  intro d hd
  simp only [List.head?_cons, Option.mem_def, Option.some.injEq] at hd
  exact hd ▸ h

theorem noDigitAhead_nil : NoDigitAhead [] := by
  intro d hd
  simp at hd

/-- Reading the formatted time text gives the six numbers it was formatted from. -/
theorem Store.readTimeFields_fmtCreatedAt (t : Time) :
    readTimeFields (Store.fmtCreatedAt t) =
      some (t.Year, t.Month, t.Day, t.Hour, t.Minute, t.Second) := by
  have hdash : NoDigitAhead (chr '-' :: (fmtInt t.Month ++ chr '-' :: (fmtInt t.Day ++
      chr ' ' :: (fmtInt t.Hour ++ chr ':' :: (fmtInt t.Minute ++ chr ':' :: fmtInt t.Second))))) :=
    noDigitAhead_cons _ _ (by decide)
  have hdash2 : NoDigitAhead (chr '-' :: (fmtInt t.Day ++
      chr ' ' :: (fmtInt t.Hour ++ chr ':' :: (fmtInt t.Minute ++ chr ':' :: fmtInt t.Second)))) :=
    noDigitAhead_cons _ _ (by decide)
  have hblank : NoDigitAhead (chr ' ' :: (fmtInt t.Hour ++ chr ':' :: (fmtInt t.Minute ++
      chr ':' :: fmtInt t.Second))) :=
    noDigitAhead_cons _ _ (by decide)
  have hcolon : NoDigitAhead (chr ':' :: (fmtInt t.Minute ++ chr ':' :: fmtInt t.Second)) :=
    noDigitAhead_cons _ _ (by decide)
  have hcolon2 : NoDigitAhead (chr ':' :: fmtInt t.Second) :=
    noDigitAhead_cons _ _ (by decide)
  have hlast : readInt (fmtInt t.Second) = some (t.Second, []) := by
    have := readInt_fmtInt t.Second [] noDigitAhead_nil
    rwa [List.append_nil] at this
  unfold Store.fmtCreatedAt readTimeFields
  simp only [List.append_assoc, List.cons_append]
  simp only [readInt_fmtInt _ _ hdash, readInt_fmtInt _ _ hdash2, readInt_fmtInt _ _ hblank,
    readInt_fmtInt _ _ hcolon, readInt_fmtInt _ _ hcolon2, hlast, Option.some_bind, readChar,
    if_true]

/-- C5: cursor round trip: for every time, every identifier without a comma and every `int`
offset, decoding the encoded cursor succeeds and returns the text
year-month-day hour:minute:second of the time, every number in decimal without zero
padding (`timeText`, which reads back to the six numbers of the time), the same identifier
and the same offset. -/
theorem decodeCursor_encodeCursor (t : Time) (id : GoString) (offset : GoInt)
    (hid : chr ',' ∉ id) :
    Store.decodeCursor (Store.encodeCursor t id offset) = .ok (timeText t, id, offset) ∧
    readTimeFields (timeText t) = some (t.Year, t.Month, t.Day, t.Hour, t.Minute, t.Second) := by
  constructor
  · unfold Store.decodeCursor Store.encodeCursor
    rw [b64Decode_b64Encode]
    simp only [Store.cursorKey, List.append_assoc, List.cons_append]
    rw [splitOn_append _ _ _ (Store.comma_not_mem_fmtCreatedAt t), splitOn_append _ _ _ hid,
      splitOn_of_not_mem _ _ (comma_not_mem_fmtInt _)]
    simp only [Atoi_fmtInt, Store.fmtCreatedAt_eq_timeText]
  · rw [← Store.fmtCreatedAt_eq_timeText]
    exact Store.readTimeFields_fmtCreatedAt t

/-- Example for C5: a cursor for 2024-11-04 22:00:00 UTC carries the text
"2024-11-4 22:0:0". -/
theorem decodeCursor_encodeCursor_witness :
    chr ',' ∉ ascii "abc" ∧
    timeText ⟨1730757600, 5, 0⟩ = ascii "2024-11-4 22:0:0" ∧
    Store.decodeCursor (Store.encodeCursor ⟨1730757600, 5, 0⟩ (ascii "abc") (GoInt.ofInt 7)) =
      .ok (timeText ⟨1730757600, 5, 0⟩, ascii "abc", GoInt.ofInt 7) :=
  ⟨by decide, (Store.fmtCreatedAt_eq_timeText _).symm.trans (by decide),
    (decodeCursor_encodeCursor ⟨1730757600, 5, 0⟩ (ascii "abc") (GoInt.ofInt 7) (by decide)).1⟩

/-! ## The listing query -/

theorem Store.effectiveLimit_eq (filter : UserFilter) :
    Store.effectiveLimit filter =
      if filter.Limit.val = 0 then GoInt.ofInt 100 else filter.Limit := by
  unfold Store.effectiveLimit Store.DEFAULT_LIMIT
  by_cases h : filter.Limit = GoInt.ofInt 0
  · rw [if_pos h, if_pos (by rw [h]; decide)]
  · rw [if_neg h, if_neg (fun hv => h (GoInt.ext_val (by rw [hv]; decide)))]

theorem GoInt.sub_self (a : GoInt) : GoInt.sub a a = GoInt.ofInt 0 := by
  unfold GoInt.sub
  rw [Int.sub_self]

/-- C6: for a filter that carries only a previous-page cursor which decodes to an offset
equal to the effective limit, what `GetAllUsers` sends to the backend (statement text,
arguments, sort direction, LIMIT) is what it sends for the same filter without a cursor:
the base statement with no comparison predicate, sorted descending, and the offset used
for the page flags is 0; so the whole listing call behaves the same on every backend. -/
theorem previous_to_first_page (filter : UserFilter) (createdAt id : GoString) (offset : GoInt)
    (hn : filter.NextPage = []) (hp : filter.PreviousPage ≠ [])
    (hd : Store.decodeCursor filter.PreviousPage = .ok (createdAt, id, offset))
    (ho : offset = Store.effectiveLimit filter) :
    Store.buildQuery filter = Store.buildQuery { filter with PreviousPage := [] } ∧
    Store.buildQuery filter = .ok
      { stmt := Store.getAllUsersBaseStmt ++ Store.orderAndLimit (ascii "DESC") (Store.effectiveLimit filter)
        args := (Store.buildArgumentsAndExtendQueryFromFilter filter Store.getAllUsersBaseStmt).1
        sortOrder := ascii "DESC"
        limit := Store.effectiveLimit filter
        offset := GoInt.ofInt 0 } ∧
    ∀ db, Store.GetAllUsers db filter = Store.GetAllUsers db { filter with PreviousPage := [] } := by
  have h2 : Store.buildQuery filter = .ok
      { stmt := Store.getAllUsersBaseStmt ++ Store.orderAndLimit (ascii "DESC") (Store.effectiveLimit filter)
        args := (Store.buildArgumentsAndExtendQueryFromFilter filter Store.getAllUsersBaseStmt).1
        sortOrder := ascii "DESC"
        limit := Store.effectiveLimit filter
        offset := GoInt.ofInt 0 } := by
    unfold Store.buildQuery
    simp only [hn, ne_eq, not_true_eq_false, if_false, hp, not_false_eq_true, if_true, hd, ho,
      GoInt.sub_self]
  have h1 : Store.buildQuery filter = Store.buildQuery { filter with PreviousPage := [] } := by
    rw [h2]
    unfold Store.buildQuery
    simp only [hn, ne_eq, not_true_eq_false, if_false]
    rfl
  refine ⟨h1, h2, fun db => ?_⟩
  unfold Store.GetAllUsers
  rw [← h1]
  rfl

/-- Example for C6: the cursor of "2024-11-4 22:0:0,abc,100" with the default limit. -/
theorem previous_to_first_page_witness :
    Store.buildQuery backToFirstFilter =
      Store.buildQuery { backToFirstFilter with PreviousPage := [] } :=
  (previous_to_first_page backToFirstFilter (ascii "2024-11-4 22:0:0") (ascii "abc")
    (GoInt.ofInt 100) (by decide) (by decide) (by decide) (by decide)).1

theorem Store.orderAndLimit_suffix (pre sortOrder : GoString) (limit : GoInt) :
    ∃ front, pre ++ Store.orderAndLimit sortOrder limit =
      front ++ ascii " LIMIT " ++ fmtInt limit.val :=
  ⟨pre ++ (ascii " ORDER BY created_at " ++ sortOrder ++ ascii ", id " ++ sortOrder), by
    simp only [Store.orderAndLimit, List.append_assoc]⟩

/-- C9: the page size of `GetAllUsers` is 100 when `filter.Limit` is 0 and `filter.Limit`
otherwise, and this one value is the number in the LIMIT clause, the amount added to the
decoded offset of a next-page cursor and subtracted from that of a previous-page cursor,
and the limit given to `setPreviousPage` and `setNextPage`. -/
theorem effectiveLimit_used (filter : UserFilter) :
    Store.effectiveLimit filter =
      (if filter.Limit.val = 0 then GoInt.ofInt 100 else filter.Limit) ∧
    (∀ q, Store.buildQuery filter = .ok q →
      q.limit = Store.effectiveLimit filter ∧
      (∃ front, q.stmt = front ++ ascii " LIMIT " ++ fmtInt (Store.effectiveLimit filter).val) ∧
      (filter.NextPage ≠ [] → ∃ c i o, Store.decodeCursor filter.NextPage = .ok (c, i, o) ∧
        q.offset = GoInt.add o (Store.effectiveLimit filter)) ∧
      (filter.NextPage = [] → filter.PreviousPage ≠ [] →
        ∃ c i o, Store.decodeCursor filter.PreviousPage = .ok (c, i, o) ∧
          q.offset = GoInt.sub o (Store.effectiveLimit filter))) ∧
    (∀ db r, Store.GetAllUsers db filter = .returned r → r.err = none →
      ∃ q results, Store.buildQuery filter = .ok q ∧ r.users = some results ∧
        Store.setPreviousPage results q.offset (Store.effectiveLimit filter) = some r.previousPage ∧
        Store.setNextPage results q.offset r.total (Store.effectiveLimit filter) = some r.nextPage) := by
  have hq : ∀ q, Store.buildQuery filter = .ok q →
      q.limit = Store.effectiveLimit filter ∧
      (∃ front, q.stmt = front ++ ascii " LIMIT " ++ fmtInt (Store.effectiveLimit filter).val) ∧
      (filter.NextPage ≠ [] → ∃ c i o, Store.decodeCursor filter.NextPage = .ok (c, i, o) ∧
        q.offset = GoInt.add o (Store.effectiveLimit filter)) ∧
      (filter.NextPage = [] → filter.PreviousPage ≠ [] →
        ∃ c i o, Store.decodeCursor filter.PreviousPage = .ok (c, i, o) ∧
          q.offset = GoInt.sub o (Store.effectiveLimit filter)) := by
    intro q h
    unfold Store.buildQuery at h
    simp only at h
    by_cases hn : filter.NextPage ≠ []
    · rw [if_pos hn] at h
      cases hd : Store.decodeCursor filter.NextPage with
      | error e => rw [hd] at h; cases h
      | ok r =>
        obtain ⟨c, i, o⟩ := r
        rw [hd] at h
        simp only [Except.ok.injEq] at h
        subst h
        refine ⟨rfl, ?_, fun _ => ⟨c, i, o, rfl, rfl⟩, fun h0 => absurd h0 hn⟩
        simp only [List.append_assoc]
        obtain ⟨front, hf⟩ := Store.orderAndLimit_suffix
          (Store.cursorPredicate
            (if (Store.buildArgumentsAndExtendQueryFromFilter filter Store.getAllUsersBaseStmt).1.length = 0
              then ascii "WHERE" else ascii "AND") (ascii "<")
            (Store.buildArgumentsAndExtendQueryFromFilter filter Store.getAllUsersBaseStmt).2)
          (ascii "DESC") (Store.effectiveLimit filter)
        exact ⟨Store.getAllUsersBaseStmt ++ front, by rw [hf]; simp only [List.append_assoc]⟩
    · rw [if_neg hn] at h
      by_cases hp : filter.PreviousPage ≠ []
      · rw [if_pos hp] at h
        cases hd : Store.decodeCursor filter.PreviousPage with
        | error e => rw [hd] at h; cases h
        | ok r =>
          obtain ⟨c, i, o⟩ := r
          rw [hd] at h
          simp only at h
          split at h
          · simp only [Except.ok.injEq] at h
            subst h
            refine ⟨rfl, ?_, fun h0 => absurd h0 hn, fun _ _ => ⟨c, i, o, rfl, rfl⟩⟩
            simp only [List.append_assoc]
            obtain ⟨front, hf⟩ := Store.orderAndLimit_suffix
              (Store.cursorPredicate
                (if (Store.buildArgumentsAndExtendQueryFromFilter filter Store.getAllUsersBaseStmt).1.length = 0
                  then ascii "WHERE" else ascii "AND") (ascii ">")
                (Store.buildArgumentsAndExtendQueryFromFilter filter Store.getAllUsersBaseStmt).2)
              (ascii "ASC") (Store.effectiveLimit filter)
            exact ⟨Store.getAllUsersBaseStmt ++ front, by rw [hf]; simp only [List.append_assoc]⟩
          · simp only [Except.ok.injEq] at h
            subst h
            exact ⟨rfl, Store.orderAndLimit_suffix _ _ _, fun h0 => absurd h0 hn,
              fun _ _ => ⟨c, i, o, rfl, rfl⟩⟩
      · rw [if_neg hp] at h
        simp only [Except.ok.injEq] at h
        subst h
        exact ⟨rfl, Store.orderAndLimit_suffix _ _ _, fun h0 => absurd h0 hn,
          fun _ h0 => absurd h0 hp⟩
  refine ⟨Store.effectiveLimit_eq filter, hq, ?_⟩
  intro db r h herr
  unfold Store.GetAllUsers at h
  cases hb : Store.buildQuery filter with
  | error e =>
    rw [hb] at h
    simp only [Outcome.returned.injEq] at h
    rw [← h] at herr
    cases herr
  | ok q =>
    have hlim := (hq q hb).1
    rw [hb] at h
    simp only at h
    split at h
    · cases h
    · split at h
      · simp only [Outcome.returned.injEq] at h
        rw [← h] at herr
        cases herr
      · next results _ =>
        split at h
        · simp only [Outcome.returned.injEq] at h
          rw [← h] at herr
          cases herr
        · next total _ =>
          split at h
          · next previousPage nextPage hprev hnext =>
            simp only [Outcome.returned.injEq] at h
            subst h
            rw [hlim] at hprev hnext
            exact ⟨q, results, rfl, rfl, hprev, hnext⟩
          · cases h

/-- Example for C9: with `Limit` 0 the query carries the limit 100. -/
theorem effectiveLimit_used_witness :
    ∃ q, Store.buildQuery backToFirstFilter = .ok q ∧ q.limit = GoInt.ofInt 100 :=
  ⟨{ stmt := Store.getAllUsersBaseStmt ++ Store.orderAndLimit (ascii "DESC") (GoInt.ofInt 100)
     args := [], sortOrder := ascii "DESC", limit := GoInt.ofInt 100, offset := GoInt.ofInt 0 },
    by decide, ((effectiveLimit_used backToFirstFilter).2.1 _ (by decide)).1⟩

set_option maxRecDepth 100000 in
/-- C7, the code at a previous-page cursor whose offset (4) differs from the limit (2): the
statement sent sorts ascending, and `GetAllUsers` returns the rows as the backend delivered
them, `sampleUser 2` before the newer `sampleUser 3`, which is not newest-first; both
cursors are derived from `sampleUser 3`, the newest record of the page. -/
theorem previous_page_oldest_first :
    (Store.buildQuery previousFilter).map (fun q => (q.stmt, q.sortOrder)) =
      .ok (previousStmt, ascii "ASC") ∧
    Store.GetAllUsers ascendingBackend previousFilter =
      .returned ⟨some [sampleUser 2, sampleUser 3],
        Store.encodeCursor (sampleUser 3).CreatedAt.UTC (sampleUser 3).ID.String (GoInt.ofInt 2),
        Store.encodeCursor (sampleUser 3).CreatedAt.UTC (sampleUser 3).ID.String (GoInt.ofInt 2),
        GoInt.ofInt 5, none⟩ ∧
    newestFirst [sampleUser 2, sampleUser 3] = false ∧
    newestFirst [sampleUser 3, sampleUser 2] = true := by
  refine ⟨by decide, by decide, by decide, by decide⟩

set_option maxRecDepth 100000 in
/-- C8, the code at a filter on the country "BG": the listing statement sent has no WHERE
clause although the argument "BG" is passed along; the text with the predicate exists only
in the local copy inside `buildArgumentsAndExtendQueryFromFilter`; the count statement is
the bare count. -/
theorem country_predicate_dropped :
    Store.buildQuery countryFilter = .ok
      { stmt := ascii "SELECT id, first_name, last_name, nickname, password, email, country, created_at, updated_at FROM users ORDER BY created_at DESC, id DESC LIMIT 100"
        args := [ascii "BG"], sortOrder := ascii "DESC", limit := GoInt.ofInt 100
        offset := GoInt.ofInt 0 } ∧
    (Store.filterVars countryFilter Store.getAllUsersBaseStmt).getUsersBaseStmt =
      ascii "SELECT id, first_name, last_name, nickname, password, email, country, created_at, updated_at FROM users WHERE country=$0" ∧
    Store.totalCount recordingBackend countryFilter = (GoInt.ofInt 1, none) := by
  refine ⟨by decide, by decide, by decide⟩

/-! ## The manager -/

/-- C10: `Manager.GetAllUsers` with both cursors non-empty returns the error with nil
records, empty cursors and total 0 and does not call the store; in every other case it
calls the store once, with the filter it was given, and returns what the store returned. -/
theorem manager_GetAllUsers_spec (userStore : UserFilter → Outcome) (filter : UserFilter) :
    (filter.PreviousPage ≠ [] ∧ filter.NextPage ≠ [] →
      Manager.GetAllUsers userStore filter =
        ([], .returned ⟨none, [], [], GoInt.ofInt 0,
          some (.new "either next or previous page should be provided")⟩)) ∧
    (¬ (filter.PreviousPage ≠ [] ∧ filter.NextPage ≠ []) →
      Manager.GetAllUsers userStore filter = ([filter], userStore filter)) := by
  constructor
  · intro h
    unfold Manager.GetAllUsers
    rw [if_pos h]; rfl
  · intro h
    unfold Manager.GetAllUsers
    rw [if_neg h]

/-- Example for C10: the store double of the manager test, called with a filter without
cursors and with a filter that sets both. -/
theorem manager_GetAllUsers_spec_witness :
    Manager.GetAllUsers storeDouble { backToFirstFilter with PreviousPage := [] } =
      ([{ backToFirstFilter with PreviousPage := [] }],
        storeDouble { backToFirstFilter with PreviousPage := [] }) ∧
    Manager.GetAllUsers storeDouble { backToFirstFilter with NextPage := ascii "x" } =
      ([], .returned ⟨none, [], [], GoInt.ofInt 0,
        some (.new "either next or previous page should be provided")⟩) :=
  ⟨(manager_GetAllUsers_spec storeDouble { backToFirstFilter with PreviousPage := [] }).2
      (by decide),
    (manager_GetAllUsers_spec storeDouble { backToFirstFilter with NextPage := ascii "x" }).1
      (by decide)⟩

/-! ## The email pattern -/

theorem mem_charClass (l x : List Byte) :
    x ∈ (charClass l).matches' ↔ ∃ c ∈ l, x = [c] := by
  induction l with
  | nil => simp [charClass, RegularExpression.matches', Language.not_mem_zero]
  | cons a as ih =>
    have h : charClass (a :: as) = .plus (.char a) (charClass as) := rfl
    rw [h, RegularExpression.matches', Language.mem_add, ih]
    simp only [RegularExpression.matches', List.mem_cons, exists_eq_or_imp]
    exact Iff.rfl

theorem mem_star_charClass (l x : List Byte) :
    x ∈ (RegularExpression.star (charClass l)).matches' ↔ ∀ c ∈ x, c ∈ l := by
  rw [RegularExpression.matches', Language.mem_kstar]
  constructor
  · rintro ⟨L, rfl, hL⟩
    intro c hc
    simp only [List.mem_flatten] at hc
    obtain ⟨y, hy, hcy⟩ := hc
    obtain ⟨d, hd, rfl⟩ := (mem_charClass l y).mp (hL y hy)
    simp only [List.mem_singleton] at hcy
    exact hcy ▸ hd
  · intro h
    refine ⟨x.map fun c => [c], ?_, ?_⟩
    · clear h
      induction x with
      | nil => rfl
      | cons a as ih => simp [← ih]
    · intro y hy
      simp only [List.mem_map] at hy
      obtain ⟨c, hc, rfl⟩ := hy
      exact (mem_charClass l [c]).mpr ⟨c, h c hc, rfl⟩

theorem mem_oneOrMore (l x : List Byte) :
    x ∈ (oneOrMore (charClass l)).matches' ↔ x ≠ [] ∧ ∀ c ∈ x, c ∈ l := by
  unfold oneOrMore
  rw [RegularExpression.matches', Language.mem_mul]
  constructor
  · rintro ⟨a, ha, b, hb, rfl⟩
    obtain ⟨c, hc, rfl⟩ := (mem_charClass l a).mp ha
    have hb' := (mem_star_charClass l b).mp hb
    refine ⟨by simp, ?_⟩
    intro d hd
    simp only [List.singleton_append, List.mem_cons] at hd
    rcases hd with rfl | hd
    · exact hc
    · exact hb' d hd
  · rintro ⟨hne, h⟩
    cases x with
    | nil => exact absurd rfl hne
    | cons c cs =>
      exact ⟨[c], (mem_charClass l [c]).mpr ⟨c, h c (by simp), rfl⟩, cs,
        (mem_star_charClass l cs).mpr (fun d hd => h d (by simp [hd])), rfl⟩

theorem mem_twoToFour (l x : List Byte) :
    x ∈ (twoToFour (charClass l)).matches' ↔
      2 ≤ x.length ∧ x.length ≤ 4 ∧ ∀ c ∈ x, c ∈ l := by
  unfold twoToFour
  simp only [RegularExpression.matches', Language.mem_mul, Language.mem_add, Language.mem_one,
    mem_charClass]
  constructor
  · rintro ⟨_, ⟨c1, h1, rfl⟩, _, ⟨_, ⟨c2, h2, rfl⟩, t, ht, rfl⟩, rfl⟩
    rcases ht with rfl | ⟨_, ⟨c3, h3, rfl⟩, u, hu, rfl⟩
    · refine ⟨by simp, by simp, ?_⟩
      intro c hc
      simp only [List.append_nil, List.singleton_append, List.mem_cons, List.mem_singleton,
        List.not_mem_nil, or_false] at hc
      rcases hc with rfl | rfl
      · exact h1
      · exact h2
    · rcases hu with rfl | ⟨c4, h4, rfl⟩
      · refine ⟨by simp, by simp, ?_⟩
        intro c hc
        simp only [List.append_nil, List.singleton_append, List.mem_cons, List.mem_singleton,
          List.not_mem_nil, or_false] at hc
        rcases hc with rfl | rfl | rfl
        · exact h1
        · exact h2
        · exact h3
      · refine ⟨by simp, by simp, ?_⟩
        intro c hc
        simp only [List.singleton_append, List.mem_cons, List.mem_singleton,
          List.not_mem_nil, or_false] at hc
        rcases hc with rfl | rfl | rfl | rfl
        · exact h1
        · exact h2
        · exact h3
        · exact h4
  · rintro ⟨h2, h4, h⟩
    match x, h2, h4, h with
    | [a, b], _, _, h =>
      exact ⟨[a], ⟨a, h a (by simp), rfl⟩, [b], ⟨[b], ⟨b, h b (by simp), rfl⟩, [], Or.inl rfl,
        rfl⟩, rfl⟩
    | [a, b, c], _, _, h =>
      exact ⟨[a], ⟨a, h a (by simp), rfl⟩, [b, c], ⟨[b], ⟨b, h b (by simp), rfl⟩, [c],
        Or.inr ⟨[c], ⟨c, h c (by simp), rfl⟩, [], Or.inl rfl, rfl⟩, rfl⟩, rfl⟩
    | [a, b, c, d], _, _, h =>
      exact ⟨[a], ⟨a, h a (by simp), rfl⟩, [b, c, d], ⟨[b], ⟨b, h b (by simp), rfl⟩, [c, d],
        Or.inr ⟨[c], ⟨c, h c (by simp), rfl⟩, [d], Or.inr ⟨d, h d (by simp), rfl⟩, rfl⟩,
        rfl⟩, rfl⟩
    | [], h2, _, _ => simp at h2
    | [_], h2, _, _ => simp at h2
    | _ :: _ :: _ :: _ :: _ :: _, _, h4, _ => simp at h4

theorem mem_letterRange (base n : Nat) (hb : base + n ≤ 256) (c : Byte) :
    c ∈ (List.range n).map (fun i => (Fin.ofNat (base + i) : Byte)) ↔
      base ≤ c.val ∧ c.val < base + n := by
  simp only [List.mem_map, List.mem_range]
  constructor
  · rintro ⟨i, hi, rfl⟩
    simp only [Fin.ofNat]
    omega
  · rintro ⟨h1, h2⟩
    refine ⟨c.val - base, by omega, ?_⟩
    apply Fin.ext
    simp only [Fin.ofNat]
    omega

theorem mem_lowerLetters (c : Byte) : c ∈ lowerLetters ↔ isLowerLetter c := by
  unfold lowerLetters isLowerLetter
  rw [mem_letterRange 97 26 (by omega)]
  omega

theorem mem_decimalDigits (c : Byte) : c ∈ decimalDigits ↔ isDecimalDigit c := by
  unfold decimalDigits isDecimalDigit
  rw [mem_letterRange 48 10 (by omega)]
  omega

theorem mem_localChars (c : Byte) : c ∈ localChars ↔ isLocalChar c := by
  unfold localChars isLocalChar
  simp only [List.mem_append, mem_lowerLetters, mem_decimalDigits, List.mem_cons,
    List.mem_singleton, List.not_mem_nil, or_false, or_assoc]

theorem mem_domainChars (c : Byte) : c ∈ domainChars ↔ isDomainChar c := by
  unfold domainChars isDomainChar
  simp only [List.mem_append, mem_lowerLetters, mem_decimalDigits, List.mem_cons,
    List.mem_singleton, List.not_mem_nil, or_false, or_assoc]

theorem mem_comp (P Q : RegularExpression Byte) (x : List Byte) :
    x ∈ (RegularExpression.comp P Q).matches' ↔
      ∃ a ∈ P.matches', ∃ b ∈ Q.matches', a ++ b = x :=
  Language.mem_mul

theorem mem_char (a : Byte) (x : List Byte) :
    x ∈ (RegularExpression.char a).matches' ↔ x = [a] :=
  Iff.rfl

/-- The matcher accepts exactly the strings of the email format. -/
theorem Manager.isEmailValid_iff (e : GoString) :
    Manager.isEmailValid e = true ↔ IsEmailShaped e := by
  unfold Manager.isEmailValid IsEmailShaped
  rw [RegularExpression.rmatch_iff_matches']
  unfold emailRegex
  simp only [mem_comp, mem_char, mem_twoToFour, mem_oneOrMore]
  constructor
  · rintro ⟨loc, ⟨hl1, hl2⟩, _, ⟨_, rfl, _, ⟨dom, ⟨hd1, hd2⟩, _, ⟨_, rfl, tld, ht, rfl⟩, rfl⟩,
      rfl⟩, rfl⟩
    exact ⟨loc, dom, tld, by simp, hl1, fun c hc => (mem_localChars c).mp (hl2 c hc), hd1,
      fun c hc => (mem_domainChars c).mp (hd2 c hc), ht.1, ht.2.1,
      fun c hc => (mem_lowerLetters c).mp (ht.2.2 c hc)⟩
  · rintro ⟨loc, dom, tld, rfl, hl1, hl2, hd1, hd2, ht1, ht2, ht3⟩
    exact ⟨loc, ⟨hl1, fun c hc => (mem_localChars c).mpr (hl2 c hc)⟩, _,
      ⟨[chr '@'], rfl, _, ⟨dom, ⟨hd1, fun c hc => (mem_domainChars c).mpr (hd2 c hc)⟩, _,
        ⟨[chr '.'], rfl, tld, ⟨ht1, ht2, fun c hc => (mem_lowerLetters c).mpr (ht3 c hc)⟩, rfl⟩,
        rfl⟩, rfl⟩, by simp⟩

theorem not_upper_of_localChar (c : Byte) (h : isLocalChar c) : ¬ isUpperLetter c := by
  unfold isLocalChar isLowerLetter isDecimalDigit at h
  rcases h with h | h | rfl | rfl | rfl | rfl | rfl
  · unfold isUpperLetter; omega
  · unfold isUpperLetter; omega
  all_goals decide

theorem not_upper_of_domainChar (c : Byte) (h : isDomainChar c) : ¬ isUpperLetter c := by
  unfold isDomainChar isLowerLetter isDecimalDigit at h
  rcases h with h | h | rfl | rfl
  · unfold isUpperLetter; omega
  · unfold isUpperLetter; omega
  all_goals decide

theorem not_upper_of_lower (c : Byte) (h : isLowerLetter c) : ¬ isUpperLetter c := by
  unfold isLowerLetter at h
  unfold isUpperLetter
  omega

theorem IsEmailShaped.no_upper {e : GoString} (h : IsEmailShaped e) (c : Byte) (hc : c ∈ e) :
    ¬ isUpperLetter c := by
  obtain ⟨loc, dom, tld, rfl, _, hl, _, hd, _, _, ht⟩ := h
  simp only [List.mem_append, List.mem_cons] at hc
  rcases hc with hc | rfl | hc | rfl | hc
  · exact not_upper_of_localChar c (hl c hc)
  · decide
  · exact not_upper_of_domainChar c (hd c hc)
  · decide
  · exact not_upper_of_lower c (ht c hc)

theorem IsEmailShaped.has_at {e : GoString} (h : IsEmailShaped e) : chr '@' ∈ e := by
  obtain ⟨loc, dom, tld, rfl, _⟩ := h
  simp

theorem IsEmailShaped.last_lower {e : GoString} (h : IsEmailShaped e) :
    ∃ c, e.getLast? = some c ∧ isLowerLetter c := by
  obtain ⟨loc, dom, tld, rfl, _, _, _, _, h2, _, ht⟩ := h
  have hne : tld ≠ [] := by
    intro h0; rw [h0] at h2; simp at h2
  refine ⟨tld.getLast hne, ?_, ht _ (List.getLast_mem hne)⟩
  have e1 : loc ++ chr '@' :: (dom ++ chr '.' :: tld) = (loc ++ chr '@' :: (dom ++ [chr '.'])) ++ tld := by
    simp
  rw [e1, List.getLast?_append_of_ne_nil _ hne, List.getLast?_eq_getLast _ hne]

theorem Manager.isEmailValid_eq_false (e : GoString) (h : ¬ IsEmailShaped e) :
    Manager.isEmailValid e = false := by
  cases hv : Manager.isEmailValid e with
  | false => rfl
  | true => exact absurd ((Manager.isEmailValid_iff e).mp hv) h

/-- C12: `isEmailValid` is true exactly for the strings that consist, with nothing before or
after, of a non-empty run of lowercase letters, digits, `.`, `_`, `%`, `+`, `-`, then `@`,
then a non-empty run of lowercase letters, digits, `.`, `-`, then `.`, then two to four
lowercase letters; a string with an uppercase letter, without `@`, or ending in a line
feed is rejected. -/
theorem isEmailValid_spec (e : GoString) :
    (Manager.isEmailValid e = true ↔ IsEmailShaped e) ∧
    ((∃ c ∈ e, isUpperLetter c) → Manager.isEmailValid e = false) ∧
    (chr '@' ∉ e → Manager.isEmailValid e = false) ∧
    (e.getLast? = some (10 : Byte) → Manager.isEmailValid e = false) := by
  refine ⟨Manager.isEmailValid_iff e, ?_, ?_, ?_⟩
  · rintro ⟨c, hc, hu⟩
    exact Manager.isEmailValid_eq_false e (fun h => h.no_upper c hc hu)
  · intro hna
    exact Manager.isEmailValid_eq_false e (fun h => hna h.has_at)
  · intro hl
    refine Manager.isEmailValid_eq_false e (fun h => ?_)
    obtain ⟨c, hc, hlow⟩ := h.last_lower
    rw [hl] at hc
    simp only [Option.some.injEq] at hc
    rw [← hc] at hlow
    exact absurd hlow (by decide)

set_option maxRecDepth 100000 in
/-- Example for C12: "test@faceit.com" is accepted; "Test@faceit.com", "invalid-mail-format"
and "test@faceit.com" followed by a line feed are rejected. -/
theorem isEmailValid_spec_witness :
    Manager.isEmailValid (ascii "test@faceit.com") = true ∧
    Manager.isEmailValid (ascii "Test@faceit.com") = false ∧
    Manager.isEmailValid (ascii "invalid-mail-format") = false ∧
    Manager.isEmailValid (ascii "test@faceit.com" ++ [10]) = false :=
  ⟨(isEmailValid_spec (ascii "test@faceit.com")).1.mpr
      ⟨ascii "test", ascii "faceit", ascii "com", by decide, by decide, by decide, by decide,
        by decide, by decide, by decide, by decide⟩,
    (isEmailValid_spec (ascii "Test@faceit.com")).2.1 ⟨chr 'T', by decide, by decide⟩,
    (isEmailValid_spec (ascii "invalid-mail-format")).2.2.1 (by decide),
    (isEmailValid_spec (ascii "test@faceit.com" ++ [10])).2.2.2 (by decide)⟩

/-! ## The manager's mutations -/

set_option maxRecDepth 100000 in
theorem Manager.testMail_valid : Manager.isEmailValid (ascii "test@faceit.com") = true :=
  (Manager.isEmailValid_iff _).mpr
    ⟨ascii "test", ascii "faceit", ascii "com", by decide, by decide, by decide, by decide,
      by decide, by decide, by decide, by decide⟩

theorem Manager.invalidMail_rejected :
    Manager.isEmailValid (ascii "invalid-mail-format") = false :=
  Manager.isEmailValid_eq_false _ (fun h => absurd h.has_at (by decide))

/-- C11: for every record whose email does not match the pattern, `CreateUser` and
`ModifyUser` return the error "invalid email" and call neither the store nor the notifier;
"invalid-mail-format" is such an email; for a record with the email "test@faceit.com" and a
store that succeeds both return no error. -/
theorem invalid_email_rejected (m : Manager) (fmtUser : User → GoString) (newID : UUID)
    (user : User) :
    (Manager.isEmailValid user.Email = false →
      Manager.CreateUser m fmtUser newID user = ([], some (.new "invalid email")) ∧
      Manager.ModifyUser m fmtUser user = ([], some (.new "invalid email"))) ∧
    Manager.isEmailValid (ascii "invalid-mail-format") = false ∧
    (user.Email = ascii "test@faceit.com" →
      m.userStore.SaveUser { user with ID := newID } = none →
      (Manager.CreateUser m fmtUser newID user).2 = none) ∧
    (user.Email = ascii "test@faceit.com" → m.userStore.UpdateUser user = none →
      (Manager.ModifyUser m fmtUser user).2 = none) := by
  refine ⟨?_, Manager.invalidMail_rejected, ?_, ?_⟩
  · intro h
    unfold Manager.CreateUser Manager.ModifyUser
    simp only [h, Bool.not_false, if_true, and_self]
  · intro he hs
    have hv : Manager.isEmailValid user.Email = true := by
      rw [he]; exact Manager.testMail_valid
    unfold Manager.CreateUser
    simp only [hv, Bool.not_true, Bool.false_eq_true, if_false, hs]
  · intro he hs
    have hv : Manager.isEmailValid user.Email = true := by
      rw [he]; exact Manager.testMail_valid
    unfold Manager.ModifyUser
    simp only [hv, Bool.not_true, Bool.false_eq_true, if_false, hs]

/-- Example for C11: the two records of the manager test. -/
theorem invalid_email_rejected_witness :
    Manager.CreateUser sampleManager sampleFmtUser (sampleUser 7).ID invalidMailUser =
      ([], some (.new "invalid email")) ∧
    (Manager.CreateUser sampleManager sampleFmtUser (sampleUser 7).ID validMailUser).2 = none :=
  ⟨((invalid_email_rejected sampleManager sampleFmtUser (sampleUser 7).ID invalidMailUser).1
      Manager.invalidMail_rejected).1,
    (invalid_email_rejected sampleManager sampleFmtUser (sampleUser 7).ID validMailUser).2.2.1
      rfl rfl⟩

theorem Manager.notify_count (m : Manager) (msg : GoString) :
    ((Manager.notify m msg).filter Call.isNotify).length = if m.shouldNotify then 1 else 0 := by
  unfold Manager.notify
  cases m.shouldNotify with
  | false => rfl
  | true =>
    cases m.notifier msg with
    | none => rfl
    | some e => rfl

/-- C13: for every record with a valid email `CreateUser` returns exactly the error
`SaveUser` returned (none when it succeeded), whatever the notifier returns and whether or
not notification is on; the notifier is called at most once, and exactly once when the
store succeeded and notification is on. The same holds for `ModifyUser` with `UpdateUser`
and, for every identifier, for `RemoveUser` with `DeleteUser`. -/
theorem store_error_propagates (m : Manager) (fmtUser : User → GoString) (newID : UUID)
    (user : User) (id : UUID) :
    (Manager.isEmailValid user.Email = true →
      (Manager.CreateUser m fmtUser newID user).2 =
          m.userStore.SaveUser { user with ID := newID } ∧
        (((Manager.CreateUser m fmtUser newID user).1.filter Call.isNotify).length ≤ 1) ∧
        (((Manager.CreateUser m fmtUser newID user).1.filter Call.isNotify).length = 1 ↔
          m.userStore.SaveUser { user with ID := newID } = none ∧ m.shouldNotify = true)) ∧
    (Manager.isEmailValid user.Email = true →
      (Manager.ModifyUser m fmtUser user).2 = m.userStore.UpdateUser user ∧
        (((Manager.ModifyUser m fmtUser user).1.filter Call.isNotify).length ≤ 1) ∧
        (((Manager.ModifyUser m fmtUser user).1.filter Call.isNotify).length = 1 ↔
          m.userStore.UpdateUser user = none ∧ m.shouldNotify = true)) ∧
    ((Manager.RemoveUser m id).2 = m.userStore.DeleteUser id ∧
      (((Manager.RemoveUser m id).1.filter Call.isNotify).length ≤ 1) ∧
      (((Manager.RemoveUser m id).1.filter Call.isNotify).length = 1 ↔
        m.userStore.DeleteUser id = none ∧ m.shouldNotify = true)) := by
  refine ⟨?_, ?_, ?_⟩
  · intro hv
    unfold Manager.CreateUser
    simp only [hv, Bool.not_true, Bool.false_eq_true, if_false]
    cases hs : m.userStore.SaveUser { user with ID := newID } with
    | some e => simp [Call.isNotify]
    | none =>
      have hn := Manager.notify_count m
        (ascii "User has been created: " ++ fmtUser { user with ID := newID })
      simp only [List.filter_cons, Call.isNotify, Bool.false_eq_true, if_false, hn, true_and]
      cases m.shouldNotify <;> simp
  · intro hv
    unfold Manager.ModifyUser
    simp only [hv, Bool.not_true, Bool.false_eq_true, if_false]
    cases hs : m.userStore.UpdateUser user with
    | some e => simp [Call.isNotify]
    | none =>
      have hn := Manager.notify_count m (ascii "User has been updated: " ++ fmtUser user)
      simp only [List.filter_cons, Call.isNotify, Bool.false_eq_true, if_false, hn, true_and]
      cases m.shouldNotify <;> simp
  · unfold Manager.RemoveUser
    cases hs : m.userStore.DeleteUser id with
    | some e => simp [Call.isNotify]
    | none =>
      have hn := Manager.notify_count m (ascii "User has been deleted: " ++ id.String)
      simp only [List.filter_cons, Call.isNotify, Bool.false_eq_true, if_false, hn, true_and]
      cases m.shouldNotify <;> simp

/-- Example for C13: with a failing notifier the creation still succeeds; with a failing
store the error "test-error" comes back. -/
theorem store_error_propagates_witness :
    (Manager.CreateUser sampleManager sampleFmtUser (sampleUser 7).ID validMailUser).2 = none ∧
    (Manager.CreateUser failingManager sampleFmtUser (sampleUser 7).ID validMailUser).2 =
      some (.new "test-error") :=
  ⟨((store_error_propagates sampleManager sampleFmtUser (sampleUser 7).ID validMailUser
      (sampleUser 7).ID).1 Manager.testMail_valid).1,
    ((store_error_propagates failingManager sampleFmtUser (sampleUser 7).ID validMailUser
      (sampleUser 7).ID).1 Manager.testMail_valid).1⟩

/-! ## The HTTP handlers -/

set_option maxRecDepth 100000 in
/-- C14, the claim fails: a create and an update request with the email
"invalid-mail-format", a listing request with both cursors and a listing request with a
malformed cursor make the manager fail with its validation or cursor error, and the
handler answers each with status 500, which is server-class and not client-class. -/
theorem validation_failure_answers_500 :
    sampleCreator badEmailParams.toUser = some (.new "invalid email") ∧
    UserView.CreateUserEndpoint.ServeHTTP sampleCreator (.decoded badEmailParams) = 500 ∧
    sampleModifier (badEmailUpdate.toUser (sampleUser 1).ID) = some (.new "invalid email") ∧
    UserView.UpdateUserEndpoint.ServeHTTP sampleModifier (some (sampleUser 1).ID)
      (.decoded badEmailUpdate) = 500 ∧
    (∃ filter, bothCursorsQuery.filter = some filter ∧ sampleGetter filter =
      .returned (failWith (.new "either next or previous page should be provided"))) ∧
    UserView.GetAllUsersEndpoint.ServeHTTP sampleGetter (fun _ => true) bothCursorsQuery =
      some 500 ∧
    (∃ filter, malformedCursorQuery.filter = some filter ∧
      sampleGetter filter = .returned (failWith .corruptInput)) ∧
    UserView.GetAllUsersEndpoint.ServeHTTP sampleGetter (fun _ => true) malformedCursorQuery =
      some 500 ∧
    ¬ UserView.isClientClass 500 ∧ UserView.isServerClass 500 := by
  refine ⟨by decide, by decide, by decide, by decide, ⟨_, rfl, by decide⟩, by decide,
    ⟨_, rfl, by decide⟩, by decide, by decide, by decide⟩

/-- C14 as amended: whenever the manager returns an error, of whatever kind, the create,
update, delete and list handlers answer with status 500; a client-class status is answered
exactly when the handler itself rejects the request before calling the manager (body
unreadable, malformed or incomplete, identifier or limit not parseable). -/
theorem manager_error_answers_500 (userCreator userModifier : User → Option GoError)
    (userRemover : UUID → Option GoError) (userGetter : UserFilter → Outcome)
    (marshals : Listing → Bool) :
    (∀ p, p.valid = true → userCreator p.toUser ≠ none →
      UserView.CreateUserEndpoint.ServeHTTP userCreator (.decoded p) = 500) ∧
    (∀ p id, p.valid = true → userModifier (p.toUser id) ≠ none →
      UserView.UpdateUserEndpoint.ServeHTTP userModifier (some id) (.decoded p) = 500) ∧
    (∀ id, userRemover id ≠ none →
      UserView.DeleteUserEndpoint.ServeHTTP userRemover (some id) = 500) ∧
    (∀ q filter r, q.filter = some filter → userGetter filter = .returned r → r.err ≠ none →
      UserView.GetAllUsersEndpoint.ServeHTTP userGetter marshals q = some 500) ∧
    (∀ body, UserView.isClientClass (UserView.CreateUserEndpoint.ServeHTTP userCreator body) ↔
      ∃ status, UserView.tryReadingBody UserView.CreateUserParams.valid body = .error status) ∧
    (∀ id body,
      UserView.isClientClass (UserView.UpdateUserEndpoint.ServeHTTP userModifier id body) ↔
        id = none ∨
          ∃ status, UserView.tryReadingBody UserView.UpdateUserParams.valid body = .error status) ∧
    (∀ id, UserView.isClientClass (UserView.DeleteUserEndpoint.ServeHTTP userRemover id) ↔
      id = none) ∧
    (∀ q status, UserView.GetAllUsersEndpoint.ServeHTTP userGetter marshals q = some status →
      (UserView.isClientClass status ↔ q.filter = none)) := by
  have c400 : UserView.isClientClass UserView.StatusBadRequest := by decide
  have c500 : ¬ UserView.isClientClass UserView.StatusInternalServerError := by decide
  have c200 : ¬ UserView.isClientClass UserView.StatusOK := by decide
  have hbody : ∀ {α : Type} (valid : α → Bool) (body : UserView.Body α) (status : Nat),
      UserView.tryReadingBody valid body = .error status → UserView.isClientClass status := by
    intro α valid body status h
    cases body with
    | unreadable => simp only [UserView.tryReadingBody, Except.error.injEq] at h; exact h ▸ c400
    | malformed => simp only [UserView.tryReadingBody, Except.error.injEq] at h; exact h ▸ c400
    | decoded p =>
      simp only [UserView.tryReadingBody] at h
      split at h
      · cases h
      · simp only [Except.error.injEq] at h; exact h ▸ c400
  refine ⟨?_, ?_, ?_, ?_, ?_, ?_, ?_, ?_⟩
  · intro p hp he
    unfold UserView.CreateUserEndpoint.ServeHTTP UserView.tryReadingBody
    simp only [hp, if_true]
    cases hc : userCreator p.toUser with
    | none => exact absurd hc he
    | some e => rfl
  · intro p id hp he
    unfold UserView.UpdateUserEndpoint.ServeHTTP UserView.tryReadingBody
    simp only [hp, if_true]
    cases hc : userModifier (p.toUser id) with
    | none => exact absurd hc he
    | some e => rfl
  · intro id he
    unfold UserView.DeleteUserEndpoint.ServeHTTP
    cases hc : userRemover id with
    | none => exact absurd hc he
    | some e => simp only [hc]; rfl
  · intro q filter r hq hg he
    unfold UserView.GetAllUsersEndpoint.ServeHTTP
    simp only [hq, hg, he, ne_eq, not_false_eq_true, if_true]
    rfl
  · intro body
    unfold UserView.CreateUserEndpoint.ServeHTTP
    cases hb : UserView.tryReadingBody UserView.CreateUserParams.valid body with
    | error status =>
      simp only [Except.error.injEq, exists_eq', iff_true]
      exact hbody _ _ _ hb
    | ok p =>
      simp only [reduceCtorEq, exists_false, iff_false]
      cases userCreator p.toUser with
      | none => exact c200
      | some e => exact c500
  · intro id body
    unfold UserView.UpdateUserEndpoint.ServeHTTP
    cases id with
    | none => simp only [true_or, iff_true]; exact c400
    | some id =>
      cases hb : UserView.tryReadingBody UserView.UpdateUserParams.valid body with
      | error status =>
        simp only [reduceCtorEq, Except.error.injEq, exists_eq', or_true, iff_true]
        exact hbody _ _ _ hb
      | ok p =>
        simp only [reduceCtorEq, exists_false, or_self, iff_false]
        cases userModifier (p.toUser id) with
        | none => exact c200
        | some e => exact c500
  · intro id
    unfold UserView.DeleteUserEndpoint.ServeHTTP
    cases id with
    | none => simp only [iff_true]; exact c400
    | some id =>
      simp only [reduceCtorEq, iff_false]
      cases userRemover id with
      | none => exact c200
      | some e => exact c500
  · intro q status h
    unfold UserView.GetAllUsersEndpoint.ServeHTTP at h
    cases hq : q.filter with
    | none =>
      rw [hq] at h
      simp only [Option.some.injEq] at h
      simp only [iff_true]
      exact h ▸ c400
    | some filter =>
      rw [hq] at h
      simp only [reduceCtorEq, iff_false]
      cases hg : userGetter filter with
      | panicked => simp only [hg, reduceCtorEq] at h
      | returned r =>
        simp only [hg] at h
        split at h
        · simp only [Option.some.injEq] at h; exact h ▸ c500
        · split at h
          · simp only [Option.some.injEq] at h; exact h ▸ c200
          · simp only [Option.some.injEq] at h; exact h ▸ c500

/-- Example for C14 as amended: the create request with the email "invalid-mail-format". -/
theorem manager_error_answers_500_witness :
    UserView.CreateUserEndpoint.ServeHTTP sampleCreator (.decoded badEmailParams) = 500 :=
  (manager_error_answers_500 sampleCreator sampleModifier (fun _ => none) sampleGetter
    (fun _ => true)).1 badEmailParams (by decide) (by decide)

/-! ## Backend failures -/

set_option maxRecDepth 100000 in
/-- C15, the code at three failing backends and a first-page filter: when the page query
fails `GetAllUsers` panics; when the count query fails it returns that error with nil
records, empty cursors and total 0; when iterating the count rows fails it returns
success, with the page, empty cursors and total 0. -/
theorem backend_failures :
    Store.GetAllUsers pageFailBackend firstPageFilter = .panicked ∧
    Store.GetAllUsers countFailBackend firstPageFilter =
      .returned ⟨none, [], [], GoInt.ofInt 0, some (.external 2)⟩ ∧
    Store.totalCount countIterFailBackend firstPageFilter = (GoInt.ofInt 0, none) ∧
    Store.GetAllUsers countIterFailBackend firstPageFilter =
      .returned ⟨some [sampleUser 3], [], [], GoInt.ofInt 0, none⟩ := by
  refine ⟨by decide, by decide, by decide, by decide⟩

/-! ## The granularity of a cursor -/

theorem yearOfEra_bounds (doe : Int) (h0 : 0 ≤ doe) (h1 : doe ≤ 146096) :
    0 ≤ (doe - doe / 1460 + doe / 36524 - doe / 146096) / 365 ∧
    (doe - doe / 1460 + doe / 36524 - doe / 146096) / 365 ≤ 399 := by
  omega

theorem dayOfYear_bounds (doe yoe : Int) (h0 : 0 ≤ doe) (h1 : doe ≤ 146096)
    (hy : yoe = (doe - doe / 1460 + doe / 36524 - doe / 146096) / 365) :
    0 ≤ doe - (365 * yoe + yoe / 4 - yoe / 100) ∧
    doe - (365 * yoe + yoe / 4 - yoe / 100) ≤ 365 := by
  obtain ⟨c, hc⟩ : ∃ c, c = doe / 1460 := ⟨_, rfl⟩
  obtain ⟨d, hd⟩ : ∃ d, d = doe / 36524 := ⟨_, rfl⟩
  obtain ⟨e, he⟩ : ∃ e, e = doe / 146096 := ⟨_, rfl⟩
  have hd0 : 0 ≤ d := by omega
  have hd1 : d ≤ 4 := by omega
  have he0 : 0 ≤ e := by omega
  have he1 : e ≤ 1 := by omega
  rw [← hc, ← hd, ← he] at hy
  interval_cases d
  · have hc0 : 0 ≤ c := by omega
    have hc1 : c ≤ 25 := by omega
    have he2 : e = 0 := by omega
    subst he2
    interval_cases c <;> omega
  · have hc0 : 25 ≤ c := by omega
    have hc1 : c ≤ 50 := by omega
    have he2 : e = 0 := by omega
    subst he2
    interval_cases c <;> omega
  · have hc0 : 50 ≤ c := by omega
    have hc1 : c ≤ 75 := by omega
    have he2 : e = 0 := by omega
    subst he2
    interval_cases c <;> omega
  · have hc0 : 75 ≤ c := by omega
    have hc1 : c ≤ 100 := by omega
    have he2 : e = 0 := by omega
    subst he2
    interval_cases c <;> omega
  · omega

theorem daysFromCivil_key (z era doe yoe doy mp D y1 mq : Int)
    (hera : era = z / 146097) (hdoe : doe = z % 146097)
    (hdoy : doy = doe - (365 * yoe + yoe / 4 - yoe / 100))
    (hD : D = doy - (153 * mp + 2) / 5 + 1) (h0 : 0 ≤ yoe) (h399 : yoe ≤ 399)
    (h1 : y1 = yoe + era * 400) (h2 : mq = mp) :
    y1 / 400 * 146097 + ((y1 - y1 / 400 * 400) * 365 + (y1 - y1 / 400 * 400) / 4 -
      (y1 - y1 / 400 * 400) / 100 + ((153 * mq + 2) / 5 + D - 1)) - 719468 = z - 719468 := by
  subst h1 h2
  have hera2 : (yoe + era * 400) / 400 = era := by omega
  rw [hera2]
  have hs : yoe + era * 400 - era * 400 = yoe := by omega
  rw [hs]
  omega

/-- Reading the calendar date back gives the day it was computed from. -/
theorem daysFromCivil_roundtrip (z era doe yoe doy mp M Y D : Int)
    (hera : era = z / 146097) (hdoe : doe = z % 146097)
    (hyoe : yoe = (doe - doe / 1460 + doe / 36524 - doe / 146096) / 365)
    (hdoy : doy = doe - (365 * yoe + yoe / 4 - yoe / 100))
    (hmp : mp = (5 * doy + 2) / 153)
    (hM : M = if mp < 10 then mp + 3 else mp - 9)
    (hY : Y = yoe + era * 400 + (if M ≤ 2 then 1 else 0))
    (hD : D = doy - (153 * mp + 2) / 5 + 1) :
    daysFromCivil Y M D = z - 719468 := by
  have hd0 : 0 ≤ doe := by omega
  have hd1 : doe ≤ 146096 := by omega
  have hy := yearOfEra_bounds doe hd0 hd1
  rw [← hyoe] at hy
  have hdy := dayOfYear_bounds doe yoe hd0 hd1 hyoe
  rw [← hdoy] at hdy
  have hmp0 : 0 ≤ mp := by omega
  have hmp1 : mp ≤ 11 := by omega
  have hy1 : (if M ≤ 2 then Y - 1 else Y) = yoe + era * 400 := by
    rw [hY]; split <;> omega
  have hmp2 : (if 2 < M then M - 3 else M + 9) = mp := by
    rw [hM]; split <;> split <;> omega
  unfold daysFromCivil
  exact daysFromCivil_key z era doe yoe doy mp D _ _ hera hdoe hdoy hD hy.1 hy.2 hy1 hmp2

theorem Time.unixFromCivil_fields (t : Time) :
    unixFromCivil t.Year t.Month t.Day t.Hour t.Minute t.Second = t.wall := by
  have hdays : daysFromCivil t.Year t.Month t.Day = t.days :=
    (daysFromCivil_roundtrip (t.days + 719468) _ _ _ _ _ _ _ _ rfl rfl rfl rfl rfl rfl rfl
      rfl).trans (by omega)
  unfold unixFromCivil
  rw [hdays]
  unfold Time.Hour Time.Minute Time.Second Time.secOfDay Time.days
  omega

/-- The instant read from a cursor is the whole second of the time it was encoded from,
on the wall clock of the time's location. -/
theorem Store.cursorInstant_encodeCursor (t : Time) (id : GoString) (offset : GoInt) :
    cursorInstant (Store.encodeCursor t id offset) = some t.wall := by
  unfold cursorInstant Store.encodeCursor
  rw [b64Decode_b64Encode]
  simp only [Store.cursorKey, List.append_assoc, List.cons_append, Option.some_bind]
  rw [splitOn_append _ _ _ (Store.comma_not_mem_fmtCreatedAt t)]
  simp only [List.head?_cons, Option.some_bind, Store.readTimeFields_fmtCreatedAt,
    Option.map_some', Time.unixFromCivil_fields]

/-- C16: `encodeCursor` depends on the creation time only through year, month, day, hour,
minute and second: two times that agree on the six fields, and in particular two times of
the same location that differ only in the sub-second part, give equal cursors for every
identifier and offset. The time text the cursor of a UTC creation time carries, read back
from the cursor, names exactly the whole second of the creation time; so the instant it
names is never later than the creation time, and creation times in different seconds give
different cursors. -/
theorem encodeCursor_whole_seconds (t1 t2 : Time) (id : GoString) (offset : GoInt) :
    (t1.Year = t2.Year → t1.Month = t2.Month → t1.Day = t2.Day → t1.Hour = t2.Hour →
      t1.Minute = t2.Minute → t1.Second = t2.Second →
      Store.encodeCursor t1 id offset = Store.encodeCursor t2 id offset) ∧
    (t1.sec = t2.sec → t1.offset = t2.offset →
      Store.encodeCursor t1 id offset = Store.encodeCursor t2 id offset) ∧
    cursorInstant (Store.encodeCursor t1.UTC id offset) = some t1.sec ∧
    (∀ s, cursorInstant (Store.encodeCursor t1.UTC id offset) = some s →
      Time.instantLt t1 ⟨s, 0, 0⟩ = false) ∧
    (t1.sec ≠ t2.sec →
      Store.encodeCursor t1.UTC id offset ≠ Store.encodeCursor t2.UTC id offset) := by
  have hutc : ∀ t : Time, cursorInstant (Store.encodeCursor t.UTC id offset) = some t.sec := by
    intro t
    rw [Store.cursorInstant_encodeCursor]
    simp [Time.wall, Time.UTC]
  refine ⟨?_, ?_, hutc t1, ?_, ?_⟩
  · intro hy hm hd hh hmi hs
    unfold Store.encodeCursor Store.cursorKey Store.fmtCreatedAt
    rw [hy, hm, hd, hh, hmi, hs]
  · intro hs ho
    have hw : t1.wall = t2.wall := by unfold Time.wall; rw [hs, ho]
    unfold Store.encodeCursor Store.cursorKey Store.fmtCreatedAt Time.Year Time.Month Time.Day
      Time.marchMonth Time.dayOfMarchYear Time.yearOfEra Time.dayOfEra Time.Hour Time.Minute
      Time.Second Time.secOfDay Time.days
    rw [hw]
  · intro s hs
    rw [hutc t1] at hs
    simp only [Option.some.injEq] at hs
    subst hs
    simp [Time.instantLt]
  · intro hne heq
    have h1 := hutc t1
    rw [heq, hutc t2] at h1
    simp only [Option.some.injEq] at h1
    exact hne h1.symm

/-- Example for C16: two instants within the second 2024-11-04 22:00:00 UTC. -/
theorem encodeCursor_whole_seconds_witness :
    Store.encodeCursor ⟨1730757600, 5, 0⟩ (ascii "abc") (GoInt.ofInt 7) =
      Store.encodeCursor ⟨1730757600, 999999999, 0⟩ (ascii "abc") (GoInt.ofInt 7) ∧
    cursorInstant (Store.encodeCursor (Time.UTC ⟨1730757600, 5, 0⟩) (ascii "abc") (GoInt.ofInt 7)) =
      some 1730757600 :=
  ⟨(encodeCursor_whole_seconds ⟨1730757600, 5, 0⟩ ⟨1730757600, 999999999, 0⟩ (ascii "abc")
      (GoInt.ofInt 7)).2.1 rfl rfl,
    (encodeCursor_whole_seconds ⟨1730757600, 5, 0⟩ ⟨1730757600, 999999999, 0⟩ (ascii "abc")
      (GoInt.ofInt 7)).2.2.1⟩

end UserService
